import Mathlib

/-!
# Response translation and delivery pipeline of `src/app.js`

A shallow embedding of `parseResponses`, `sendMessage`, `interact` and the
`/api/messages` turn callback.  JavaScript values are a first-order datatype,
a thrown exception is `Except.error`, and the channel sends of a turn are
recorded in an explicit log that is threaded through the effectful functions.
-/

namespace Celeste

/-! ## JavaScript values -/

/-- JavaScript values as the program meets them: the values `JSON.parse` can
build, plus `undefined` (the result of reading an absent property).  A number
is kept as the two observations the program can make of it: whether it is
falsy (`0`, `-0`, `NaN`) and the string `ToString` gives for it. -/
inductive JVal where
  | undefined : JVal
  | null : JVal
  | bool (b : Bool) : JVal
  | num (falsy : Bool) (repr : String) : JVal
  | str (s : String) : JVal
  | arr (elems : List JVal) : JVal
  | obj (props : List (String × JVal)) : JVal
  deriving Inhabited

/-- Exceptions the modelled code can raise. -/
inductive JSError where
  /-- A `TypeError`: property read on `null`/`undefined`, or call of a non-function. -/
  | typeError : JSError
  /-- A rejected `axios` request (network failure, timeout, non-2xx status). -/
  | upstream : JSError
  /-- A rejected `turnContext.sendActivity`. -/
  | channel : JSError
  deriving DecidableEq, Repr, Inhabited

/-- Own data property `key` of an object's property list: the value of the
first entry under that name, `undefined` when there is none. -/
def lookupProps (key : String) : List (String × JVal) → JVal
  | [] => .undefined
  | (k, v) :: rest => if k = key then v else lookupProps key rest

/-- Whether a property list has an own property `key`. -/
def hasProp (key : String) : List (String × JVal) → Bool
  | [] => false
  | (k, _) :: rest => if k = key then true else hasProp key rest

/-- Value of `v.key` for a `v` that is neither `null` nor `undefined`, for the
property names the program reads (none of them is on a built-in prototype):
an object gives its own property, every other value gives `undefined`. -/
def JVal.lookup (v : JVal) (key : String) : JVal :=
  match v with
  | .obj props => lookupProps key props
  | _ => .undefined

/-- The expression `v.key`: a `TypeError` on `null` and `undefined`. -/
def getProp (v : JVal) (key : String) : Except JSError JVal :=
  match v with
  | .undefined => .error .typeError
  | .null => .error .typeError
  | _ => .ok (v.lookup key)

/-- The test `v === 'lit'` against a string literal. -/
def strictEqStr (v : JVal) (lit : String) : Bool :=
  match v with
  | .str s => s = lit
  | _ => false

/-- JavaScript truthiness (`ToBoolean`). -/
def truthy : JVal → Bool
  | .undefined => false
  | .null => false
  | .bool b => b
  | .num falsy _ => !falsy
  | .str s => s ≠ ""
  | .arr _ => true
  | .obj _ => true

/-- Whether a value is `null` or `undefined`. -/
def nullish : JVal → Bool
  | .undefined => true
  | .null => true
  | _ => false

/-- The receiver of `.map(...)` / `.forEach(...)`: an array gives its
elements, anything else has no such method (or no properties at all) and the
call is a `TypeError`. -/
def asArray : JVal → Except JSError (List JVal)
  | .arr elems => .ok elems
  | _ => .error .typeError

/-- `Array.prototype.map` with a callback that may throw: elements are visited
in order and the first exception aborts the call. -/
def arrayMap {α β : Type} (f : α → Except JSError β) : List α → Except JSError (List β)
  | [] => .ok []
  | x :: xs =>
    match f x with
    | .error e => .error e
    | .ok y =>
      match arrayMap f xs with
      | .error e => .error e
      | .ok ys => .ok (y :: ys)

mutual
/-- The abstract operation `ToString`.  An array is its elements joined by a
comma; a plain object is `[object Object]`, unless an own `toString` property
(never callable in parsed JSON) shadows the inherited method, in which case
the conversion is a `TypeError`. -/
def toStr : JVal → Except JSError String
  | .undefined => .ok "undefined"
  | .null => .ok "null"
  | .bool true => .ok "true"
  | .bool false => .ok "false"
  | .num _ repr => .ok repr
  | .str s => .ok s
  | .arr elems =>
    match joinParts elems with
    | .error e => .error e
    | .ok parts => .ok (String.intercalate "," parts)
  | .obj props => if hasProp "toString" props then .error .typeError else .ok "[object Object]"
/-- The element strings of `Array.prototype.join`: `null` and `undefined`
become the empty string, every other element goes through `ToString`. -/
def joinParts : List JVal → Except JSError (List String)
  | [] => .ok []
  | x :: xs =>
    match (match x with
      | .undefined => Except.ok ""
      | .null => Except.ok ""
      | y => toStr y) with
    | .error e => .error e
    | .ok s =>
      match joinParts xs with
      | .error e => .error e
      | .ok ss => .ok (s :: ss)
end

/-- The call `elems.join(sep)`. -/
def arrayJoin (elems : List JVal) (sep : String) : Except JSError String :=
  match joinParts elems with
  | .error e => .error e
  | .ok parts => .ok (String.intercalate sep parts)

/-! ## `parseResponses` (lines 137-153) -/

/-- The inner callback `(child) => child.text || ''`. -/
def childText (child : JVal) : Except JSError JVal :=
  match getProp child "text" with
  | .error e => .error e
  | .ok t => .ok (if truthy t then t else .str "")

/-- The outer callback `(block) => block.children.map(...).join('')`. -/
def blockText (block : JVal) : Except JSError JVal := do
  let children ← getProp block "children"
  let spans ← asArray children
  let texts ← arrayMap childText spans
  let line ← arrayJoin texts ""
  pure (.str line)

/-- The callback `(button) => ({ label: button.request.payload.label })`. -/
def buttonLabel (button : JVal) : Except JSError JVal := do
  let request ← getProp button "request"
  let payload ← getProp request "payload"
  let label ← getProp payload "label"
  pure (.obj [("label", label)])

/-- The body of the `forEach` callback of `parseResponses`, with the array
`responses` passed in and the array after the (possible) `push` returned. -/
def parseItem (responses : List JVal) (item : JVal) : Except JSError (List JVal) := do
  let type ← getProp item "type"
  if strictEqStr type "text" then
    let payload ← getProp item "payload"
    let slate ← getProp payload "slate"
    let content ← getProp slate "content"
    let blocks ← asArray content
    let lines ← arrayMap blockText blocks
    let text ← arrayJoin lines "\n"
    pure (responses ++ [.obj [("type", .str "text"), ("value", .str text)]])
  else if strictEqStr type "visual" then
    let payload ← getProp item "payload"
    let image ← getProp payload "image"
    pure (responses ++ [.obj [("type", .str "image"), ("value", image)]])
  else if strictEqStr type "choice" then
    let payload ← getProp item "payload"
    let buttons ← getProp payload "buttons"
    let descriptors ← asArray buttons
    let labels ← arrayMap buttonLabel descriptors
    pure (responses ++ [.obj [("type", .str "buttons"), ("buttons", .arr labels)]])
  else
    pure responses

/-- The loop `data.forEach(...)` over the remaining items. -/
def forEachItem : List JVal → List JVal → Except JSError (List JVal)
  | responses, [] => .ok responses
  | responses, item :: rest =>
    match parseItem responses item with
    | .error e => .error e
    | .ok responses' => forEachItem responses' rest

/-- The function `parseResponses(data)`. -/
def parseResponses (data : JVal) : Except JSError (List JVal) :=
  match asArray data with
  | .error e => .error e
  | .ok items => forEachItem [] items

/-! ## The channel and the card factory -/

/-- One image of a card, as `CardFactory.images` builds it from an entry of
the array it is given: an entry with `typeof img === 'object'` is used as it
is, any other entry becomes `{ url: img }`. -/
inductive CardImage where
  | given (image : JVal) : CardImage
  | url (url : JVal) : CardImage

/-- One action button of a card, as `CardFactory.actions` builds it from an
entry of the array it is given: an entry with `typeof a === 'object'` is used
as it is, any other entry becomes the `imBack` action whose `title` and
`value` are both `a.toString()`. -/
inductive CardAction where
  | given (action : JVal) : CardAction
  | imBack (text : String) : CardAction

/-- What is handed to `turnContext.sendActivity`: either a value sent as it is
(a string is a plain text message), or `MessageFactory.attachment` of a hero
card, recorded by the card's title (`none` when it has none), its images and
its action buttons (a card without the property has the empty list). -/
inductive Activity where
  | text (value : JVal) : Activity
  | heroCard (title : Option JVal) (images : List CardImage) (buttons : List CardAction) :
      Activity

/-- The channel of one turn: given the sends attempted so far and the activity
now being sent, whether `sendActivity` resolves (`true`) or rejects. -/
abbrev Channel := List Activity → Activity → Bool

/-- Result of an effectful step: the value returned or the exception thrown,
and the log of all channel sends attempted so far, oldest first. -/
abbrev Outcome (α : Type) := Except JSError α × List Activity

/-- The statement `await turnContext.sendActivity(a)`. -/
def sendActivity (ch : Channel) (log : List Activity) (a : Activity) : Outcome Unit :=
  (if ch log a then .ok () else .error .channel, log ++ [a])

/-- The test `typeof v === 'object'` (true of `null`). -/
def typeofObject : JVal → Bool
  | .null => true
  | .arr _ => true
  | .obj _ => true
  | _ => false

/-- The callback of `CardFactory.images`; it cannot throw. -/
def cardImage (img : JVal) : CardImage :=
  if typeofObject img then .given img else .url img

/-- The callback of `CardFactory.actions`.  The method call `a.toString()` is
a `TypeError` on `undefined`; on a string, a number and a boolean it gives the
value's string. -/
def cardAction : JVal → Except JSError CardAction
  | .undefined => .error .typeError
  | .null => .ok (.given .null)
  | .bool true => .ok (.imBack "true")
  | .bool false => .ok (.imBack "false")
  | .num _ repr => .ok (.imBack repr)
  | .str s => .ok (.imBack s)
  | .arr elems => .ok (.given (.arr elems))
  | .obj props => .ok (.given (.obj props))

/-- The receiver `(list || [])` of the `forEach` in `CardFactory.images` and
`CardFactory.actions`, reached only when `list` is truthy. -/
def cardEntries (list : JVal) : Except JSError (List JVal) :=
  if truthy list then asArray list else .ok []

/-- The library call `CardFactory.heroCard(title, images, buttons)` of
`botbuilder`, in the overload both call sites use (the second argument is not
a string): the title is set when truthy, the images go through
`CardFactory.images` and the buttons through `CardFactory.actions`, which
throws on an `undefined` entry. -/
def heroCard (title images buttons : JVal) : Except JSError Activity := do
  let imgs ← cardEntries images
  let btns ← cardEntries buttons
  let actions ← arrayMap cardAction btns
  pure (.heroCard (if truthy title then some title else none) (imgs.map cardImage) actions)

/-! ## `sendMessage` (lines 156-169) -/

/-- The callback `(button) => button.label`. -/
def buttonAction (button : JVal) : Except JSError JVal :=
  getProp button "label"

/-- The activity one loop iteration of `sendMessage` builds for `message`:
`none` when no branch matches, an exception when building it throws (reading
a property, mapping the buttons, or inside `CardFactory.heroCard`). -/
def renderMessage (message : JVal) : Except JSError (Option Activity) := do
  let type ← getProp message "type"
  if strictEqStr type "image" then
    let value ← getProp message "value"
    let card ← heroCard .null (.arr [value]) .undefined
    pure (some card)
  else if strictEqStr type "buttons" then
    let buttons ← getProp message "buttons"
    let descriptors ← asArray buttons
    let actions ← arrayMap buttonAction descriptors
    let card ← heroCard .null .null (.arr actions)
    pure (some card)
  else if strictEqStr type "text" then
    let value ← getProp message "value"
    pure (some (.text value))
  else
    pure none

/-- The function `sendMessage(messages, turnContext)`: one iteration per
message, each send awaited before the next iteration starts; a rejected send
or a thrown exception leaves the loop at once. -/
def sendMessage (ch : Channel) : List JVal → List Activity → Outcome Unit
  | [], log => (.ok (), log)
  | message :: rest, log =>
    match renderMessage message with
    | .error e => (.error e, log)
    | .ok none => sendMessage ch rest log
    | .ok (some a) =>
      match sendActivity ch log a with
      | (.error e, log') => (.error e, log')
      | (.ok (), log') => sendMessage ch rest log'

/-! ## `interact` (lines 98-134) -/

/-- The remote dialogue API as seen by one turn: whether the state-update
`PATCH` for a user id succeeds, and what the interact `POST` for a user id and
an action answers (`none` when the request fails, else `response.data`). -/
structure Upstream where
  patch : JVal → Bool
  post : JVal → JVal → Option JVal

/-- The `try` block of `interact`: both requests, then `parseResponses`. -/
def interactTry (up : Upstream) (user_id request : JVal) : Except JSError (List JVal) :=
  if up.patch user_id then
    match up.post user_id request with
    | none => .error .upstream
    | some data => parseResponses data
  else
    .error .upstream

/-- The function `interact(user_id, request, turnContext)`: any exception of
the `try` block is answered with one notice and the empty array. -/
def interact (up : Upstream) (ch : Channel) (user_id request : JVal)
    (log : List Activity) : Outcome (List JVal) :=
  match interactTry up user_id request with
  | .ok responses => (.ok responses, log)
  | .error _ =>
    match sendActivity ch log (.text (.str "Failed to communicate with Voiceflow API.")) with
    | (.error e, log') => (.error e, log')
    | (.ok (), log') => (.ok [], log')

/-! ## The turn callback of `/api/messages` (lines 80-94) -/

/-- The fields of the inbound activity the callback reads: `activity.type`,
`activity.from.id` and `activity.text` (which may be `undefined`). -/
structure InboundActivity where
  type : String
  fromId : JVal
  text : JVal

/-- The `try` block of the turn callback. -/
def turnTry (up : Upstream) (ch : Channel) (user_id utterance : JVal)
    (log : List Activity) : Outcome Unit :=
  match interact up ch user_id (.obj [("type", .str "text"), ("payload", utterance)]) log with
  | (.error e, log') => (.error e, log')
  | (.ok response, log') =>
    if response.length > 0 then sendMessage ch response log' else (.ok (), log')

/-- The callback given to `adapter.processActivity`. -/
def onTurn (up : Upstream) (ch : Channel) (activity : InboundActivity)
    (log : List Activity) : Outcome Unit :=
  if activity.type = "message" then
    match turnTry up ch activity.fromId activity.text log with
    | (.ok (), log') => (.ok (), log')
    | (.error _, log') =>
      sendActivity ch log' (.text (.str "There was an issue processing your message."))
  else
    (.ok (), log)

/-! ## Shapes of upstream items and of normalized messages -/

/-- A span: any value a property can be read from, whose `text` is a string or
is absent. -/
def spanOk (child : JVal) : Bool :=
  !nullish child &&
    (match child.lookup "text" with
     | .undefined => true
     | .str _ => true
     | _ => false)

/-- A block: a value whose `children` is an array of spans. -/
def blockOk (block : JVal) : Bool :=
  match block.lookup "children" with
  | .arr spans => spans.all spanOk
  | _ => false

/-- Whether `ToString` of a value returns (it throws only on a value that
holds an object with an own `toString` property). -/
def stringifies (v : JVal) : Bool :=
  match toStr v with
  | .ok _ => true
  | .error _ => false

/-- The shape line 142 expects of a span: neither `null` nor `undefined`, with
a `text` that is absent or converts to a string. -/
def spanShape (child : JVal) : Bool :=
  !nullish child && stringifies (child.lookup "text")

/-- The shape line 142 expects of a block: its `children` is an array of
values of the span shape. -/
def blockShape (block : JVal) : Bool :=
  match block.lookup "children" with
  | .arr spans => spans.all spanShape
  | _ => false

/-- A button descriptor: a value with a `request` whose `payload` is neither
`null` nor `undefined`. -/
def buttonOk (button : JVal) : Bool :=
  !nullish ((button.lookup "request").lookup "payload")

/-- The shape `parseResponses` expects of an item: it is neither `null` nor
`undefined`, and for its own type: a `text` item has `payload.slate.content`,
an array of blocks; a `visual` item has a payload that is neither `null` nor
`undefined`; a `choice` item has `payload.buttons`, an array of button
descriptors; an item of any other type needs nothing more. -/
def expectedShape (item : JVal) : Bool :=
  !nullish item &&
    (if strictEqStr (item.lookup "type") "text" then
      (match ((item.lookup "payload").lookup "slate").lookup "content" with
       | .arr blocks => blocks.all blockShape
       | _ => false)
    else if strictEqStr (item.lookup "type") "visual" then
      !nullish (item.lookup "payload")
    else if strictEqStr (item.lookup "type") "choice" then
      (match (item.lookup "payload").lookup "buttons" with
       | .arr buttons => buttons.all buttonOk
       | _ => false)
    else true)

/-- Whether a value is not `undefined`. -/
def defined : JVal → Bool
  | .undefined => false
  | _ => true

/-- Every button descriptor of a `choice` item carries a label
(`button.request.payload.label` is not `undefined`); true of other items. -/
def hasLabels (item : JVal) : Bool :=
  if strictEqStr (item.lookup "type") "choice" then
    (match (item.lookup "payload").lookup "buttons" with
     | .arr buttons =>
       buttons.all fun b => defined (((b.lookup "request").lookup "payload").lookup "label")
     | _ => true)
  else true

/-- A well-formed upstream item: it has the shape `parseResponses` expects
and, when it is a `choice` item, every button descriptor carries a label. -/
def wellFormed (item : JVal) : Bool :=
  expectedShape item && hasLabels item

/-- Whether the item's type is one of the three `parseResponses` handles. -/
def recognised (item : JVal) : Bool :=
  strictEqStr (item.lookup "type") "text" || strictEqStr (item.lookup "type") "visual" ||
    strictEqStr (item.lookup "type") "choice"

/-- The text of a span: its `text` when that is a string, else the empty string. -/
def spanText (child : JVal) : String :=
  match child.lookup "text" with
  | .str s => s
  | _ => ""

/-- The spans of a block. -/
def blockSpans (block : JVal) : List JVal :=
  match block.lookup "children" with
  | .arr spans => spans
  | _ => []

/-- The text of a block: its spans' texts concatenated in order. -/
def blockLine (block : JVal) : String :=
  String.join ((blockSpans block).map spanText)

/-- The label of a button descriptor, `button.request.payload.label`. -/
def buttonLabelOf (button : JVal) : JVal :=
  ((button.lookup "request").lookup "payload").lookup "label"

/-- The three object literals `parseResponses` pushes (lines 144, 146, 149). -/
inductive NormalizedMessage where
  | text (value : String) : NormalizedMessage
  | image (value : JVal) : NormalizedMessage
  | buttons (labels : List JVal) : NormalizedMessage

/-- The JavaScript object of a normalized message. -/
def NormalizedMessage.toJS : NormalizedMessage → JVal
  | .text value => .obj [("type", .str "text"), ("value", .str value)]
  | .image value => .obj [("type", .str "image"), ("value", value)]
  | .buttons labels =>
    .obj [("type", .str "buttons"), ("buttons", .arr (labels.map fun l => .obj [("label", l)]))]

/-- The channel send a normalized message is rendered as, or the exception
building it raises: plain text for a `text`; a card with no title, the one
image and no actions for an `image`; a card with no title, no image and one
action per label for `buttons`, which `CardFactory.actions` can build only
when no label is `undefined`. -/
def NormalizedMessage.render : NormalizedMessage → Except JSError Activity
  | .text value => .ok (.text (.str value))
  | .image value => .ok (.heroCard none [cardImage value] [])
  | .buttons labels =>
    match arrayMap cardAction labels with
    | .error e => .error e
    | .ok actions => .ok (.heroCard none [] actions)

/-- Every label of a button set is present (not `undefined`); true of a text
and of an image. -/
def NormalizedMessage.labelled : NormalizedMessage → Bool
  | .buttons labels => labels.all defined
  | _ => true

/-- A `text` item whose document is the given blocks of span texts. -/
def textItem (blocks : List (List String)) : JVal :=
  .obj [("type", .str "text"),
    ("payload", .obj [("slate", .obj [("content", .arr (blocks.map fun spans =>
      .obj [("children", .arr (spans.map fun s => .obj [("text", .str s)]))]))])])]

/-- The normalized message `nm` is of the kind the item's type calls for: a
text message for `text`, the image message of `payload.image` for `visual`,
the button set of the labels of the descriptors in `payload.buttons`, in
order, for `choice`. -/
def sameKind (item : JVal) (nm : NormalizedMessage) : Prop :=
  match nm with
  | .text _ => item.lookup "type" = .str "text"
  | .image value =>
    item.lookup "type" = .str "visual" ∧ value = (item.lookup "payload").lookup "image"
  | .buttons labels =>
    item.lookup "type" = .str "choice" ∧
      ∃ descriptors, (item.lookup "payload").lookup "buttons" = .arr descriptors ∧
        labels = descriptors.map buttonLabelOf

/-! ## Basic facts -/

theorem getProp_of_not_nullish {v : JVal} (h : nullish v = false) (key : String) :
    getProp v key = .ok (v.lookup key) := by
  cases v <;> simp_all [getProp, nullish]

theorem nullish_of_lookup_ne {v : JVal} {key : String} (h : nullish (v.lookup key) = false) :
    nullish v = false := by
  cases v <;> simp_all [JVal.lookup, nullish]

theorem eq_of_strictEqStr {v : JVal} {lit : String} (h : strictEqStr v lit = true) :
    v = .str lit := by
  cases v <;> simp_all [strictEqStr]

theorem getProp_ok {v r : JVal} {key : String} (h : getProp v key = .ok r) :
    r = v.lookup key := by
  cases v <;> simp_all [getProp]

theorem asArray_ok {v : JVal} {xs : List JVal} (h : asArray v = .ok xs) : v = .arr xs := by
  cases v <;> simp_all [asArray]

theorem parseItem_eq_append (responses : List JVal) (item : JVal) :
    parseItem responses item =
      match parseItem [] item with
      | .error e => .error e
      | .ok out => .ok (responses ++ out) := by
  unfold parseItem
  cases getProp item "type" with
  | error e => rfl
  | ok type =>
    simp only [bind, Except.bind, pure, Except.pure]
    split_ifs
    · cases getProp item "payload" with
      | error e => rfl
      | ok payload =>
        simp only []
        cases getProp payload "slate" with
        | error e => rfl
        | ok slate =>
          simp only []
          cases getProp slate "content" with
          | error e => rfl
          | ok content =>
            simp only []
            cases asArray content with
            | error e => rfl
            | ok blocks =>
              simp only []
              cases arrayMap blockText blocks with
              | error e => rfl
              | ok lines =>
                simp only []
                cases arrayJoin lines "\n" with
                | error e => rfl
                | ok text => simp
    · cases getProp item "payload" with
      | error e => rfl
      | ok payload =>
        simp only []
        cases getProp payload "image" with
        | error e => rfl
        | ok image => simp
    · cases getProp item "payload" with
      | error e => rfl
      | ok payload =>
        simp only []
        cases getProp payload "buttons" with
        | error e => rfl
        | ok buttons =>
          simp only []
          cases asArray buttons with
          | error e => rfl
          | ok descriptors =>
            simp only []
            cases arrayMap buttonLabel descriptors with
            | error e => rfl
            | ok labels => simp
    · simp

theorem forEachItem_eq_append (responses items : List JVal) :
    forEachItem responses items =
      match forEachItem [] items with
      | .error e => .error e
      | .ok out => .ok (responses ++ out) := by
  induction items generalizing responses with
  | nil => simp [forEachItem]
  | cons item rest ih =>
    simp only [forEachItem]
    rw [parseItem_eq_append responses item]
    cases h : parseItem [] item with
    | error e => rfl
    | ok out =>
      simp only []
      rw [ih (responses ++ out), ih out]
      cases forEachItem [] rest with
      | error e => rfl
      | ok out' => simp

theorem forEachItem_cons (item : JVal) (rest : List JVal) :
    forEachItem [] (item :: rest) =
      match parseItem [] item with
      | .error e => .error e
      | .ok out =>
        match forEachItem [] rest with
        | .error e => .error e
        | .ok out' => .ok (out ++ out') := by
  simp only [forEachItem]
  cases parseItem [] item with
  | error e => rfl
  | ok out => simp only []; rw [forEachItem_eq_append]

theorem forEachItem_append (xs ys : List JVal) :
    forEachItem [] (xs ++ ys) =
      match forEachItem [] xs with
      | .error e => .error e
      | .ok a =>
        match forEachItem [] ys with
        | .error e => .error e
        | .ok b => .ok (a ++ b) := by
  induction xs with
  | nil =>
    simp only [List.nil_append, forEachItem]
    cases forEachItem [] ys <;> simp
  | cons x xs ih =>
    rw [List.cons_append, forEachItem_cons, forEachItem_cons, ih]
    cases parseItem [] x with
    | error e => rfl
    | ok out =>
      simp only []
      cases forEachItem [] xs with
      | error e => rfl
      | ok a =>
        simp only []
        cases forEachItem [] ys with
        | error e => rfl
        | ok b => simp

theorem parseResponses_arr (items : List JVal) :
    parseResponses (.arr items) = forEachItem [] items := rfl

theorem parseResponses_singleton (item : JVal) :
    parseResponses (.arr [item]) = parseItem [] item := by
  rw [parseResponses_arr, forEachItem_cons]
  cases parseItem [] item with
  | error e => rfl
  | ok out => simp [forEachItem]

/-- An item whose type is not one of the three handled ones pushes nothing. -/
theorem parseItem_unrecognised {item : JVal} (hn : nullish item = false)
    (hr : recognised item = false) : parseItem [] item = .ok [] := by
  simp only [recognised, Bool.or_eq_false_iff] at hr
  obtain ⟨⟨h1, h2⟩, h3⟩ := hr
  simp [parseItem, getProp_of_not_nullish hn, h1, h2, h3, bind, Except.bind, pure, Except.pure]

theorem arrayMap_buttonLabel_shape {ds labels : List JVal}
    (h : arrayMap buttonLabel ds = .ok labels) :
    ∃ ls : List JVal, labels = ls.map (fun l => JVal.obj [("label", l)]) ∧
      ls = ds.map buttonLabelOf := by
  induction ds generalizing labels with
  | nil =>
    simp only [arrayMap, Except.ok.injEq] at h
    exact ⟨[], by simp [← h], rfl⟩
  | cons d ds ih =>
    simp only [arrayMap] at h
    cases hd : buttonLabel d with
    | error e => simp [hd] at h
    | ok y =>
      simp only [hd] at h
      cases hds : arrayMap buttonLabel ds with
      | error e => simp [hds] at h
      | ok ys =>
        simp only [hds, Except.ok.injEq] at h
        obtain ⟨ls, hls, hlen⟩ := ih hds
        have hy : y = JVal.obj [("label", buttonLabelOf d)] := by
          unfold buttonLabel at hd
          cases h1 : getProp d "request" with
          | error e => simp [h1, bind, Except.bind] at hd
          | ok request =>
            cases h2 : getProp request "payload" with
            | error e => simp [h1, h2, bind, Except.bind] at hd
            | ok payload =>
              cases h3 : getProp payload "label" with
              | error e => simp [h1, h2, h3, bind, Except.bind] at hd
              | ok label =>
                simp only [h1, h2, h3, bind, Except.bind, pure, Except.pure,
                  Except.ok.injEq] at hd
                rw [← hd, getProp_ok h3, getProp_ok h2, getProp_ok h1]
                rfl
        exact ⟨buttonLabelOf d :: ls, by simp [← h, hy, hls], by simp [hlen]⟩

/-- Whatever `parseItem` pushes is one of the three object literals, and it
pushes exactly one of them for a recognised item and nothing otherwise. -/
theorem parseItem_normalized {item : JVal} {out : List JVal}
    (h : parseItem [] item = .ok out) :
    (recognised item = true ∧ ∃ m : NormalizedMessage, out = [m.toJS]) ∨
      (recognised item = false ∧ out = []) := by
  unfold parseItem at h
  cases hn : nullish item with
  | true => cases item <;> simp_all [nullish, getProp, bind, Except.bind]
  | false =>
    rw [getProp_of_not_nullish hn] at h
    simp only [bind, Except.bind, pure, Except.pure] at h
    rcases Bool.eq_false_or_eq_true (strictEqStr (item.lookup "type") "text") with h1 | h1
    · left
      refine ⟨by simp [recognised, h1], ?_⟩
      simp only [h1, if_true] at h
      cases hc1 : getProp item "payload" with
      | error e => simp [hc1] at h
      | ok payload =>
        simp only [hc1] at h
        cases hc2 : getProp payload "slate" with
        | error e => simp [hc2] at h
        | ok slate =>
          simp only [hc2] at h
          cases hc3 : getProp slate "content" with
          | error e => simp [hc3] at h
          | ok content =>
            simp only [hc3] at h
            cases hc4 : asArray content with
            | error e => simp [hc4] at h
            | ok blocks =>
              simp only [hc4] at h
              cases hc5 : arrayMap blockText blocks with
              | error e => simp [hc5] at h
              | ok lines =>
                simp only [hc5] at h
                cases hc6 : arrayJoin lines "\n" with
                | error e => simp [hc6] at h
                | ok text =>
                  simp only [hc6, List.nil_append, Except.ok.injEq] at h
                  exact ⟨.text text, by simp [NormalizedMessage.toJS, ← h]⟩
    · rcases Bool.eq_false_or_eq_true (strictEqStr (item.lookup "type") "visual") with h2 | h2
      · left
        refine ⟨by simp [recognised, h2], ?_⟩
        simp only [h1, h2, if_true, Bool.false_eq_true, if_false] at h
        cases hc7 : getProp item "payload" with
        | error e => simp [hc7] at h
        | ok payload =>
          simp only [hc7] at h
          cases hc8 : getProp payload "image" with
          | error e => simp [hc8] at h
          | ok image =>
            simp only [hc8, List.nil_append, Except.ok.injEq] at h
            exact ⟨.image image, by simp [NormalizedMessage.toJS, ← h]⟩
      · rcases Bool.eq_false_or_eq_true (strictEqStr (item.lookup "type") "choice") with h3 | h3
        · left
          refine ⟨by simp [recognised, h3], ?_⟩
          simp only [h1, h2, h3, if_true, Bool.false_eq_true, if_false] at h
          cases hc9 : getProp item "payload" with
          | error e => simp [hc9] at h
          | ok payload =>
            simp only [hc9] at h
            cases hc10 : getProp payload "buttons" with
            | error e => simp [hc10] at h
            | ok buttons =>
              simp only [hc10] at h
              cases hc11 : asArray buttons with
              | error e => simp [hc11] at h
              | ok descriptors =>
                simp only [hc11] at h
                cases hl : arrayMap buttonLabel descriptors with
                | error e => simp [hl] at h
                | ok labels =>
                  simp only [hl, List.nil_append, Except.ok.injEq] at h
                  obtain ⟨ls, hls, -⟩ := arrayMap_buttonLabel_shape hl
                  exact ⟨.buttons ls, by simp [NormalizedMessage.toJS, ← h, hls]⟩
        · right
          simp only [h1, h2, h3, Bool.false_eq_true, if_false] at h
          refine ⟨by simp [recognised, h1, h2, h3], ?_⟩
          simpa using h.symm

theorem arrayMap_eq_map {α β : Type} {f : α → Except JSError β} {g : α → β} {xs : List α}
    (h : ∀ x ∈ xs, f x = .ok (g x)) : arrayMap f xs = .ok (xs.map g) := by
  induction xs with
  | nil => rfl
  | cons x xs ih =>
    have hx := h x (List.mem_cons_self x xs)
    have hxs := ih (fun y hy => h y (List.mem_cons_of_mem x hy))
    simp [arrayMap, hx, hxs]

theorem joinParts_str (ss : List String) : joinParts (ss.map JVal.str) = .ok ss := by
  induction ss with
  | nil => simp [joinParts]
  | cons s ss ih => simp [joinParts, toStr, ih]

theorem arrayJoin_str (ss : List String) (sep : String) :
    arrayJoin (ss.map JVal.str) sep = .ok (String.intercalate sep ss) := by
  simp [arrayJoin, joinParts_str]

theorem intercalate_go_empty (acc : String) (ss : List String) :
    String.intercalate.go acc "" ss = ss.foldl (fun r s => r ++ s) acc := by
  induction ss generalizing acc with
  | nil => rfl
  | cons s ss ih => simp [String.intercalate.go, ih]

theorem intercalate_empty (ss : List String) : String.intercalate "" ss = String.join ss := by
  cases ss with
  | nil => rfl
  | cons s ss => simp [String.intercalate, String.join, intercalate_go_empty]

theorem childText_of_spanOk {child : JVal} (h : spanOk child = true) :
    childText child = .ok (.str (spanText child)) := by
  simp only [spanOk, Bool.and_eq_true, Bool.not_eq_true'] at h
  obtain ⟨hn, ht⟩ := h
  simp only [childText, getProp_of_not_nullish hn, spanText]
  cases hl : child.lookup "text" <;> simp_all [truthy]

theorem blockText_of_blockOk {block : JVal} (h : blockOk block = true) :
    blockText block = .ok (.str (blockLine block)) := by
  unfold blockOk at h
  cases hc : block.lookup "children" with
  | arr spans =>
    simp only [hc] at h
    have hn : nullish block = false := by
      cases block <;> simp_all [JVal.lookup, nullish]
    have hm : arrayMap childText spans = .ok (spans.map fun c => JVal.str (spanText c)) :=
      arrayMap_eq_map (fun c hcm => childText_of_spanOk (List.all_eq_true.mp h c hcm))
    have hj := arrayJoin_str (spans.map spanText) ""
    rw [List.map_map] at hj
    simp only [blockText, getProp_of_not_nullish hn, hc, asArray, bind, Except.bind, hm,
      pure, Except.pure, blockLine, blockSpans]
    rw [show (fun c => JVal.str (spanText c)) = JVal.str ∘ spanText from rfl, hj,
      intercalate_empty]
  | _ => simp [hc] at h

theorem nullish_of_strictEqStr {v : JVal} {key lit : String}
    (h : strictEqStr (v.lookup key) lit = true) : nullish v = false := by
  cases v <;> simp_all [JVal.lookup, nullish, strictEqStr]

/-- What a `text` item with a well-shaped document pushes. -/
theorem parseItem_text {item : JVal} {blocks : List JVal}
    (htype : strictEqStr (item.lookup "type") "text" = true)
    (hdoc : ((item.lookup "payload").lookup "slate").lookup "content" = .arr blocks)
    (hblocks : blocks.all blockOk = true) :
    parseItem [] item =
      .ok [(NormalizedMessage.text (String.intercalate "\n" (blocks.map blockLine))).toJS] := by
  have hn := nullish_of_strictEqStr htype
  have hs : nullish ((item.lookup "payload").lookup "slate") = false := by
    cases hq : (item.lookup "payload").lookup "slate" <;> simp_all [JVal.lookup, nullish]
  have hp := nullish_of_lookup_ne hs
  have hm : arrayMap blockText blocks = .ok (blocks.map fun b => JVal.str (blockLine b)) :=
    arrayMap_eq_map (fun b hb => blockText_of_blockOk (List.all_eq_true.mp hblocks b hb))
  have hj := arrayJoin_str (blocks.map blockLine) "\n"
  rw [List.map_map] at hj
  simp only [parseItem, getProp_of_not_nullish hn, getProp_of_not_nullish hp,
    getProp_of_not_nullish hs, htype, hdoc, asArray, bind, Except.bind, hm, pure, Except.pure,
    if_true, List.nil_append, NormalizedMessage.toJS]
  rw [show (fun b => JVal.str (blockLine b)) = JVal.str ∘ blockLine from rfl, hj]

theorem buttonLabel_of_buttonOk {button : JVal} (h : buttonOk button = true) :
    buttonLabel button = .ok (.obj [("label", buttonLabelOf button)]) := by
  simp only [buttonOk, Bool.not_eq_true'] at h
  have hr := nullish_of_lookup_ne h
  have hb := nullish_of_lookup_ne hr
  simp [buttonLabel, getProp_of_not_nullish hb, getProp_of_not_nullish hr,
    getProp_of_not_nullish h, bind, Except.bind, pure, Except.pure, buttonLabelOf]

/-- What a `choice` item with well-shaped button descriptors pushes. -/
theorem parseItem_choice {item : JVal} {buttons : List JVal}
    (htype : strictEqStr (item.lookup "type") "choice" = true)
    (hbuttons : (item.lookup "payload").lookup "buttons" = .arr buttons)
    (hok : buttons.all buttonOk = true) :
    parseItem [] item = .ok [(NormalizedMessage.buttons (buttons.map buttonLabelOf)).toJS] := by
  have hn := nullish_of_strictEqStr htype
  have hp : nullish (item.lookup "payload") = false := by
    cases hq : item.lookup "payload" <;> simp_all [JVal.lookup, nullish]
  have hm : arrayMap buttonLabel buttons =
      .ok (buttons.map fun b => JVal.obj [("label", buttonLabelOf b)]) :=
    arrayMap_eq_map (fun b hb => buttonLabel_of_buttonOk (List.all_eq_true.mp hok b hb))
  have h1 : strictEqStr (item.lookup "type") "text" = false := by
    cases ht : item.lookup "type" <;> simp_all [strictEqStr]
  have h2 : strictEqStr (item.lookup "type") "visual" = false := by
    cases ht : item.lookup "type" <;> simp_all [strictEqStr]
  simp [parseItem, getProp_of_not_nullish hn, getProp_of_not_nullish hp, htype, h1, h2,
    hbuttons, asArray, bind, Except.bind, hm, pure, Except.pure, NormalizedMessage.toJS,
    List.map_map, Function.comp_def]

/-- What a `visual` item with a payload pushes. -/
theorem parseItem_visual {item : JVal}
    (htype : strictEqStr (item.lookup "type") "visual" = true)
    (hp : nullish (item.lookup "payload") = false) :
    parseItem [] item =
      .ok [(NormalizedMessage.image ((item.lookup "payload").lookup "image")).toJS] := by
  have hn := nullish_of_strictEqStr htype
  have h1 : strictEqStr (item.lookup "type") "text" = false := by
    cases ht : item.lookup "type" <;> simp_all [strictEqStr]
  simp [parseItem, getProp_of_not_nullish hn, getProp_of_not_nullish hp, htype, h1,
    bind, Except.bind, pure, Except.pure, NormalizedMessage.toJS]

theorem arrayMap_exists {α β : Type} {f : α → Except JSError β} {P : β → Prop} {xs : List α}
    (h : ∀ x ∈ xs, ∃ y, f x = .ok y ∧ P y) :
    ∃ ys, arrayMap f xs = .ok ys ∧ ∀ y ∈ ys, P y := by
  induction xs with
  | nil => exact ⟨[], rfl, fun y hy => by cases hy⟩
  | cons x xs ih =>
    obtain ⟨y, hy, hP⟩ := h x (List.mem_cons_self x xs)
    obtain ⟨ys, hys, hall⟩ := ih (fun z hz => h z (List.mem_cons_of_mem x hz))
    refine ⟨y :: ys, by simp [arrayMap, hy, hys], ?_⟩
    intro z hz
    rcases List.mem_cons.mp hz with rfl | hz'
    · exact hP
    · exact hall z hz'

theorem arrayMap_ok_each {α β : Type} {f : α → Except JSError β} {xs : List α} {ys : List β}
    (h : arrayMap f xs = .ok ys) : ∀ x ∈ xs, ∃ y, f x = .ok y ∧ y ∈ ys := by
  induction xs generalizing ys with
  | nil => intro x hx; cases hx
  | cons a xs ih =>
    simp only [arrayMap] at h
    cases ha : f a with
    | error e => simp [ha] at h
    | ok y =>
      simp only [ha] at h
      cases hxs : arrayMap f xs with
      | error e => simp [hxs] at h
      | ok ys' =>
        simp only [hxs, Except.ok.injEq] at h
        subst h
        intro x hx
        rcases List.mem_cons.mp hx with rfl | hx'
        · exact ⟨y, ha, List.mem_cons_self y ys'⟩
        · obtain ⟨z, hz, hmem⟩ := ih hxs x hx'
          exact ⟨z, hz, List.mem_cons_of_mem y hmem⟩

theorem stringifies_of_not_truthy {v : JVal} (h : truthy v = false) : stringifies v = true := by
  cases v with
  | bool b => cases b <;> simp_all [truthy, stringifies, toStr]
  | _ => simp_all [truthy, stringifies, toStr]

theorem joinParts_cons (a : JVal) (vs : List JVal) :
    joinParts (a :: vs) =
      match (if nullish a = true then Except.ok "" else toStr a) with
      | .error e => .error e
      | .ok s =>
        match joinParts vs with
        | .error e => .error e
        | .ok ss => .ok (s :: ss) := by
  cases a <;> simp [joinParts, nullish]

theorem joinParts_of_stringifies {vs : List JVal} (h : ∀ v ∈ vs, stringifies v = true) :
    ∃ ss, joinParts vs = .ok ss := by
  induction vs with
  | nil => exact ⟨[], by simp [joinParts]⟩
  | cons v vs ih =>
    obtain ⟨ss, hss⟩ := ih (fun w hw => h w (List.mem_cons_of_mem v hw))
    have hv := h v (List.mem_cons_self v vs)
    unfold stringifies at hv
    rw [joinParts_cons, hss]
    cases hs : toStr v with
    | error e => simp [hs] at hv
    | ok s =>
      by_cases hn : nullish v = true
      · exact ⟨"" :: ss, by simp [hn]⟩
      · exact ⟨s :: ss, by simp [hn]⟩

theorem stringifies_of_joinParts {vs : List JVal} {ss : List String}
    (h : joinParts vs = .ok ss) : ∀ v ∈ vs, stringifies v = true := by
  induction vs generalizing ss with
  | nil => intro v hv; cases hv
  | cons a vs ih =>
    rw [joinParts_cons] at h
    have ha : stringifies a = true := by
      unfold stringifies
      cases hs : toStr a with
      | ok s => rfl
      | error e =>
        by_cases hn : nullish a = true
        · cases a <;> simp_all [nullish, toStr]
        · simp [hn, hs] at h
    have hvs : ∃ ss', joinParts vs = .ok ss' := by
      cases hq : joinParts vs with
      | ok ss' => exact ⟨ss', rfl⟩
      | error e =>
        rw [hq] at h
        split at h <;> simp at h
    obtain ⟨ss', hss'⟩ := hvs
    intro v hv
    rcases List.mem_cons.mp hv with rfl | hv'
    · exact ha
    · exact ih hss' v hv'

theorem childText_of_spanShape {child : JVal} (h : spanShape child = true) :
    ∃ v, childText child = .ok v ∧ stringifies v = true := by
  simp only [spanShape, Bool.and_eq_true, Bool.not_eq_true'] at h
  obtain ⟨hn, ht⟩ := h
  refine ⟨if truthy (child.lookup "text") = true then child.lookup "text" else .str "",
    by simp only [childText, getProp_of_not_nullish hn], ?_⟩
  split_ifs with htr
  · exact ht
  · simp [stringifies, toStr]

theorem spanShape_of_childText {child v : JVal} (h : childText child = .ok v)
    (hv : stringifies v = true) : spanShape child = true := by
  have hn : nullish child = false := by
    cases child <;> simp_all [childText, getProp, nullish]
  simp only [childText, getProp_of_not_nullish hn, Except.ok.injEq] at h
  simp only [spanShape, hn, Bool.not_false, Bool.true_and]
  by_cases htr : truthy (child.lookup "text") = true
  · rw [if_pos htr] at h
    rw [h]; exact hv
  · exact stringifies_of_not_truthy (by simpa using htr)

theorem blockText_of_blockShape {block : JVal} (h : blockShape block = true) :
    ∃ v, blockText block = .ok v ∧ stringifies v = true := by
  unfold blockShape at h
  cases hc : block.lookup "children" with
  | arr spans =>
    simp only [hc] at h
    have hn : nullish block = false := by
      cases block <;> simp_all [JVal.lookup, nullish]
    obtain ⟨texts, htexts, hall⟩ := @arrayMap_exists _ _ childText
      (fun v => stringifies v = true) spans
      (fun c hcm => childText_of_spanShape (List.all_eq_true.mp h c hcm))
    obtain ⟨ss, hss⟩ := joinParts_of_stringifies hall
    refine ⟨.str (String.intercalate "" ss), ?_, by simp [stringifies, toStr]⟩
    simp [blockText, getProp_of_not_nullish hn, hc, asArray, bind, Except.bind, htexts,
      arrayJoin, hss, pure, Except.pure]
  | _ => simp [hc] at h

theorem blockShape_of_blockText {block v : JVal} (h : blockText block = .ok v) :
    blockShape block = true := by
  unfold blockText at h
  cases h1 : getProp block "children" with
  | error e => simp [h1, bind, Except.bind] at h
  | ok children =>
    simp only [h1, bind, Except.bind] at h
    cases h2 : asArray children with
    | error e => simp [h2] at h
    | ok spans =>
      simp only [h2] at h
      cases h3 : arrayMap childText spans with
      | error e => simp [h3] at h
      | ok texts =>
        simp only [h3] at h
        cases h4 : arrayJoin texts "" with
        | error e => simp [h4] at h
        | ok line =>
          have hj : ∃ ss, joinParts texts = .ok ss := by
            unfold arrayJoin at h4
            cases hq : joinParts texts with
            | error e => simp [hq] at h4
            | ok ss => exact ⟨ss, rfl⟩
          obtain ⟨ss, hss⟩ := hj
          have hall := stringifies_of_joinParts hss
          have hch : children = block.lookup "children" := getProp_ok h1
          have harr := asArray_ok h2
          unfold blockShape
          rw [← hch, harr]
          simp only [List.all_eq_true]
          intro c hcm
          obtain ⟨t, ht, htm⟩ := arrayMap_ok_each h3 c hcm
          exact spanShape_of_childText ht (hall t htm)

/-- What a `text` item of the expected shape pushes: one text message. -/
theorem parseItem_text_shape {item : JVal} {blocks : List JVal}
    (htype : strictEqStr (item.lookup "type") "text" = true)
    (hdoc : ((item.lookup "payload").lookup "slate").lookup "content" = .arr blocks)
    (hblocks : blocks.all blockShape = true) :
    ∃ out, parseItem [] item = .ok out := by
  have hn := nullish_of_strictEqStr htype
  have hs : nullish ((item.lookup "payload").lookup "slate") = false := by
    cases hq : (item.lookup "payload").lookup "slate" <;> simp_all [JVal.lookup, nullish]
  have hp := nullish_of_lookup_ne hs
  obtain ⟨lines, hlines, hall⟩ := @arrayMap_exists _ _ blockText
    (fun v => stringifies v = true) blocks
    (fun b hb => blockText_of_blockShape (List.all_eq_true.mp hblocks b hb))
  obtain ⟨ss, hss⟩ := joinParts_of_stringifies hall
  refine ⟨[.obj [("type", .str "text"), ("value", .str (String.intercalate "\n" ss))]], ?_⟩
  simp only [parseItem, getProp_of_not_nullish hn, getProp_of_not_nullish hp,
    getProp_of_not_nullish hs, htype, hdoc, asArray, bind, Except.bind, hlines, arrayJoin, hss,
    pure, Except.pure, if_true, List.nil_append]

/-- An item of the expected shape never makes the callback throw. -/
theorem parseItem_of_expectedShape {item : JVal} (h : expectedShape item = true) :
    ∃ out, parseItem [] item = .ok out := by
  simp only [expectedShape, Bool.and_eq_true, Bool.not_eq_true'] at h
  obtain ⟨hn, hshape⟩ := h
  rcases Bool.eq_false_or_eq_true (strictEqStr (item.lookup "type") "text") with h1 | h1
  · simp only [h1, if_true] at hshape
    cases hc : ((item.lookup "payload").lookup "slate").lookup "content" with
    | arr blocks =>
      simp only [hc] at hshape
      exact parseItem_text_shape h1 hc hshape
    | _ => simp [hc] at hshape
  · rcases Bool.eq_false_or_eq_true (strictEqStr (item.lookup "type") "visual") with h2 | h2
    · simp only [h1, h2, if_true, Bool.false_eq_true, if_false, Bool.not_eq_true'] at hshape
      exact ⟨_, parseItem_visual h2 hshape⟩
    · rcases Bool.eq_false_or_eq_true (strictEqStr (item.lookup "type") "choice") with h3 | h3
      · simp only [h1, h2, h3, if_true, Bool.false_eq_true, if_false] at hshape
        cases hc : (item.lookup "payload").lookup "buttons" with
        | arr buttons =>
          simp only [hc] at hshape
          exact ⟨_, parseItem_choice h3 hc hshape⟩
        | _ => simp [hc] at hshape
      · exact ⟨[], parseItem_unrecognised hn (by simp [recognised, h1, h2, h3])⟩

theorem not_nullish_of_getProp {v r : JVal} {key : String} (h : getProp v key = .ok r) :
    nullish v = false := by
  cases v <;> simp_all [getProp, nullish]

theorem buttonOk_of_buttonLabel {button y : JVal} (h : buttonLabel button = .ok y) :
    buttonOk button = true := by
  unfold buttonLabel at h
  cases h1 : getProp button "request" with
  | error e => simp [h1, bind, Except.bind] at h
  | ok request =>
    cases h2 : getProp request "payload" with
    | error e => simp [h1, h2, bind, Except.bind] at h
    | ok payload =>
      cases h3 : getProp payload "label" with
      | error e => simp [h1, h2, h3, bind, Except.bind] at h
      | ok label =>
        have hp := not_nullish_of_getProp h3
        rw [getProp_ok h2, getProp_ok h1] at hp
        simp [buttonOk, hp]

/-- An item on which the callback returns has the expected shape. -/
theorem expectedShape_of_parseItem {item : JVal} {out : List JVal}
    (h : parseItem [] item = .ok out) : expectedShape item = true := by
  unfold parseItem at h
  cases hn : nullish item with
  | true => cases item <;> simp_all [nullish, getProp, bind, Except.bind]
  | false =>
    rw [getProp_of_not_nullish hn] at h
    simp only [bind, Except.bind, pure, Except.pure] at h
    simp only [expectedShape, hn, Bool.not_false, Bool.true_and]
    rcases Bool.eq_false_or_eq_true (strictEqStr (item.lookup "type") "text") with h1 | h1
    · simp only [h1, if_true] at h ⊢
      cases hc1 : getProp item "payload" with
      | error e => simp [hc1] at h
      | ok payload =>
        simp only [hc1] at h
        cases hc2 : getProp payload "slate" with
        | error e => simp [hc2] at h
        | ok slate =>
          simp only [hc2] at h
          cases hc3 : getProp slate "content" with
          | error e => simp [hc3] at h
          | ok content =>
            simp only [hc3] at h
            cases hc4 : asArray content with
            | error e => simp [hc4] at h
            | ok blocks =>
              simp only [hc4] at h
              cases hc5 : arrayMap blockText blocks with
              | error e => simp [hc5] at h
              | ok lines =>
                have hcontent : ((item.lookup "payload").lookup "slate").lookup "content" =
                    .arr blocks := by
                  rw [← getProp_ok hc1, ← getProp_ok hc2, ← getProp_ok hc3, asArray_ok hc4]
                rw [hcontent]
                simp only [List.all_eq_true]
                intro b hb
                obtain ⟨v, hv, -⟩ := arrayMap_ok_each hc5 b hb
                exact blockShape_of_blockText hv
    · rcases Bool.eq_false_or_eq_true (strictEqStr (item.lookup "type") "visual") with h2 | h2
      · simp only [h1, h2, if_true, Bool.false_eq_true, if_false] at h ⊢
        cases hc7 : getProp item "payload" with
        | error e => simp [hc7] at h
        | ok payload =>
          simp only [hc7] at h
          cases hc8 : getProp payload "image" with
          | error e => simp [hc8] at h
          | ok image =>
            have hp := not_nullish_of_getProp hc8
            rw [getProp_ok hc7] at hp
            simp [hp]
      · rcases Bool.eq_false_or_eq_true (strictEqStr (item.lookup "type") "choice") with h3 | h3
        · simp only [h1, h2, h3, if_true, Bool.false_eq_true, if_false] at h ⊢
          cases hc9 : getProp item "payload" with
          | error e => simp [hc9] at h
          | ok payload =>
            simp only [hc9] at h
            cases hc10 : getProp payload "buttons" with
            | error e => simp [hc10] at h
            | ok buttons =>
              simp only [hc10] at h
              cases hc11 : asArray buttons with
              | error e => simp [hc11] at h
              | ok descriptors =>
                simp only [hc11] at h
                cases hl : arrayMap buttonLabel descriptors with
                | error e => simp [hl] at h
                | ok labels =>
                  have hb : (item.lookup "payload").lookup "buttons" = .arr descriptors := by
                    rw [← getProp_ok hc9, ← getProp_ok hc10, asArray_ok hc11]
                  rw [hb]
                  simp only [List.all_eq_true]
                  intro d hd
                  obtain ⟨y, hy, -⟩ := arrayMap_ok_each hl d hd
                  exact buttonOk_of_buttonLabel hy
        · simp [h1, h2, h3]

theorem strictEqStr_of_eq {v : JVal} {lit : String} (h : v = .str lit) :
    strictEqStr v lit = true := by
  simp [h, strictEqStr]

/-- Where an item pushes exactly `out`, that is its contribution in any batch. -/
theorem parseResponses_insert {item : JVal} {out : List JVal}
    (h : parseItem [] item = .ok out) (xs ys a b : List JVal)
    (hxs : parseResponses (.arr xs) = .ok a) (hys : parseResponses (.arr ys) = .ok b) :
    parseResponses (.arr (xs ++ item :: ys)) = .ok (a ++ (out ++ b)) := by
  rw [parseResponses_arr] at hxs hys ⊢
  rw [forEachItem_append, forEachItem_cons, hxs, h, hys]

/-- The messages of a batch are, in order, what the recognised items push. -/
theorem forEachItem_forall₂ {items out : List JVal} (h : forEachItem [] items = .ok out) :
    List.Forall₂ (fun item m => parseItem [] item = .ok [m] ∧ ∃ nm : NormalizedMessage, m = nm.toJS)
      (items.filter recognised) out := by
  induction items generalizing out with
  | nil =>
    simp only [forEachItem, Except.ok.injEq] at h
    subst h
    exact List.Forall₂.nil
  | cons item rest ih =>
    rw [forEachItem_cons] at h
    cases hi : parseItem [] item with
    | error e => simp [hi] at h
    | ok o =>
      simp only [hi] at h
      cases hr : forEachItem [] rest with
      | error e => simp [hr] at h
      | ok o' =>
        simp only [hr, Except.ok.injEq] at h
        subst h
        rcases parseItem_normalized hi with ⟨hrec, nm, ho⟩ | ⟨hrec, ho⟩
        · subst ho
          rw [List.filter_cons_of_pos hrec]
          exact List.Forall₂.cons ⟨hi, nm, rfl⟩ (ih hr)
        · subst ho
          rw [List.filter_cons_of_neg (by simp [hrec])]
          exact ih hr

theorem exists_normalized_of_forall₂ {xs out : List JVal} {P : JVal → JVal → Prop}
    (h : List.Forall₂ (fun item m => P item m ∧ ∃ nm : NormalizedMessage, m = nm.toJS) xs out) :
    ∃ nms : List NormalizedMessage, out = nms.map NormalizedMessage.toJS := by
  induction h with
  | nil => exact ⟨[], rfl⟩
  | cons hab _ ih =>
    obtain ⟨nms, hnms⟩ := ih
    obtain ⟨-, nm, hnm⟩ := hab
    exact ⟨nm :: nms, by simp [hnm, hnms]⟩

theorem forEachItem_each {items out : List JVal} (h : forEachItem [] items = .ok out) :
    ∀ item ∈ items, ∃ o, parseItem [] item = .ok o ∧ o.length ≤ 1 := by
  induction items generalizing out with
  | nil => intro item hm; cases hm
  | cons x rest ih =>
    rw [forEachItem_cons] at h
    cases hi : parseItem [] x with
    | error e => simp [hi] at h
    | ok o =>
      simp only [hi] at h
      cases hr : forEachItem [] rest with
      | error e => simp [hr] at h
      | ok o' =>
        intro item hm
        rcases List.mem_cons.mp hm with rfl | hm'
        · refine ⟨o, hi, ?_⟩
          rcases parseItem_normalized hi with ⟨-, nm, ho⟩ | ⟨-, ho⟩ <;> simp [ho]
        · exact ih hr item hm'

theorem forEachItem_of_expectedShape {items : List JVal}
    (h : ∀ item ∈ items, expectedShape item = true) : ∃ out, forEachItem [] items = .ok out := by
  induction items with
  | nil => exact ⟨[], rfl⟩
  | cons x rest ih =>
    obtain ⟨o, ho⟩ := parseItem_of_expectedShape (h x (List.mem_cons_self x rest))
    obtain ⟨o', ho'⟩ := ih (fun y hy => h y (List.mem_cons_of_mem x hy))
    exact ⟨o ++ o', by rw [forEachItem_cons, ho, ho']⟩

/-! ## The claims about `parseResponses` -/

/-- C1: an item of type `text` whose payload is a rich-text document (blocks of
spans, a span's `text` being a string or absent) makes `parseResponses` emit
exactly one text message, alone and inside any batch; its value is the blocks'
lines joined by a newline, a line being the block's span texts concatenated
with the empty string for a span without text.  The message is emitted also
when the value is empty, and blocks `[["a","b"],["c"]]` give `"ab\nc"`. -/
theorem parseResponses_text_item (item : JVal) (blocks : List JVal)
    (htype : item.lookup "type" = .str "text")
    (hdoc : ((item.lookup "payload").lookup "slate").lookup "content" = .arr blocks)
    (hblocks : blocks.all blockOk = true) :
    parseResponses (.arr [item]) =
        .ok [.obj [("type", .str "text"),
          ("value", .str (String.intercalate "\n" (blocks.map blockLine)))]] ∧
      (∀ xs ys a b, parseResponses (.arr xs) = .ok a → parseResponses (.arr ys) = .ok b →
        parseResponses (.arr (xs ++ item :: ys)) =
          .ok (a ++ .obj [("type", .str "text"),
            ("value", .str (String.intercalate "\n" (blocks.map blockLine)))] :: b)) ∧
      parseResponses (.arr [textItem [["a", "b"], ["c"]]]) =
        .ok [.obj [("type", .str "text"), ("value", .str "ab\nc")]] ∧
      parseResponses (.arr [textItem []]) =
        .ok [.obj [("type", .str "text"), ("value", .str "")]] := by
  have h := parseItem_text (strictEqStr_of_eq htype) hdoc hblocks
  refine ⟨?_, ?_, rfl, rfl⟩
  · rw [parseResponses_singleton, h]; rfl
  · intro xs ys a b hxs hys
    rw [parseResponses_insert h xs ys a b hxs hys]; rfl

/-- C1, at a document whose second block has a span without `text` and whose
third block is empty. -/
theorem parseResponses_text_item_witness :
    parseResponses (.arr [.obj [("type", .str "text"), ("payload", .obj [("slate", .obj
      [("content", .arr [
        .obj [("children", .arr [.obj [("text", .str "a")], .obj [("text", .str "b")]])],
        .obj [("children", .arr [.obj [("bold", .bool true)], .obj [("text", .str "c")]])],
        .obj [("children", .arr [])]])])])]]) =
      .ok [.obj [("type", .str "text"), ("value", .str "ab\nc\n")]] :=
  (parseResponses_text_item
    (.obj [("type", .str "text"), ("payload", .obj [("slate", .obj
      [("content", .arr [
        .obj [("children", .arr [.obj [("text", .str "a")], .obj [("text", .str "b")]])],
        .obj [("children", .arr [.obj [("bold", .bool true)], .obj [("text", .str "c")]])],
        .obj [("children", .arr [])]])])])])
    [.obj [("children", .arr [.obj [("text", .str "a")], .obj [("text", .str "b")]])],
     .obj [("children", .arr [.obj [("bold", .bool true)], .obj [("text", .str "c")]])],
     .obj [("children", .arr [])]]
    rfl rfl rfl).1

/-- C2, as stated, fails: button descriptors that carry `label` as their own
field, `[{label:"Yes"},{label:"No"}]`, have no `request`, and `parseResponses`
throws a `TypeError` on them instead of emitting a button set. -/
theorem parseResponses_choice_own_label_throws :
    parseResponses (.arr [.obj [("type", .str "choice"), ("payload", .obj [("buttons",
      .arr [.obj [("label", .str "Yes")], .obj [("label", .str "No")]])])]]) =
      .error .typeError := rfl

/-- C2, amended: an item of type `choice` whose payload holds an array of
button descriptors, each with a request payload, makes `parseResponses` emit
exactly one button set, alone and inside any batch; its buttons are the
descriptors' `request.payload.label` values, same length and order.  Zero
descriptors give one button set with no buttons, and descriptors with request
payload labels `"Yes"`, `"No"` give the labels `["Yes","No"]`. -/
theorem parseResponses_choice_item (item : JVal) (buttons : List JVal)
    (htype : item.lookup "type" = .str "choice")
    (hbuttons : (item.lookup "payload").lookup "buttons" = .arr buttons)
    (hok : buttons.all buttonOk = true) :
    parseResponses (.arr [item]) =
        .ok [.obj [("type", .str "buttons"),
          ("buttons", .arr (buttons.map fun b => .obj [("label", buttonLabelOf b)]))]] ∧
      (buttons.map fun b => JVal.obj [("label", buttonLabelOf b)]).length = buttons.length ∧
      (∀ xs ys a b, parseResponses (.arr xs) = .ok a → parseResponses (.arr ys) = .ok b →
        parseResponses (.arr (xs ++ item :: ys)) =
          .ok (a ++ .obj [("type", .str "buttons"),
            ("buttons", .arr (buttons.map fun b => .obj [("label", buttonLabelOf b)]))] :: b)) ∧
      parseResponses (.arr [.obj [("type", .str "choice"), ("payload", .obj [("buttons",
        .arr [.obj [("request", .obj [("payload", .obj [("label", .str "Yes")])])],
              .obj [("request", .obj [("payload", .obj [("label", .str "No")])])]])])]]) =
        .ok [.obj [("type", .str "buttons"),
          ("buttons", .arr [.obj [("label", .str "Yes")], .obj [("label", .str "No")]])]] ∧
      parseResponses (.arr [.obj [("type", .str "choice"),
        ("payload", .obj [("buttons", .arr [])])]]) =
        .ok [.obj [("type", .str "buttons"), ("buttons", .arr [])]] := by
  have h := parseItem_choice (strictEqStr_of_eq htype) hbuttons hok
  refine ⟨?_, by simp, ?_, rfl, rfl⟩
  · rw [parseResponses_singleton, h]
    simp [NormalizedMessage.toJS, List.map_map, Function.comp_def]
  · intro xs ys a b hxs hys
    rw [parseResponses_insert h xs ys a b hxs hys]
    simp [NormalizedMessage.toJS, List.map_map, Function.comp_def]

/-- C2 amended, at a descriptor list whose second descriptor has a request
payload without a label. -/
theorem parseResponses_choice_item_witness :
    parseResponses (.arr [.obj [("type", .str "choice"), ("payload", .obj [("buttons",
      .arr [.obj [("name", .str "Yes"),
              ("request", .obj [("type", .str "path-1"), ("payload", .obj [("label", .str "Yes")])])],
            .obj [("request", .obj [("payload", .obj [])])]])])]]) =
      .ok [.obj [("type", .str "buttons"),
        ("buttons", .arr [.obj [("label", .str "Yes")], .obj [("label", .undefined)]])]] :=
  (parseResponses_choice_item
    (.obj [("type", .str "choice"), ("payload", .obj [("buttons",
      .arr [.obj [("name", .str "Yes"),
              ("request", .obj [("type", .str "path-1"), ("payload", .obj [("label", .str "Yes")])])],
            .obj [("request", .obj [("payload", .obj [])])]])])])
    [.obj [("name", .str "Yes"),
       ("request", .obj [("type", .str "path-1"), ("payload", .obj [("label", .str "Yes")])])],
     .obj [("request", .obj [("payload", .obj [])])]]
    rfl rfl rfl).1

/-- C3: whenever `parseResponses` returns, its output is no longer than its
input, every input item on its own yields at most one message, and there is a
strictly increasing map from output positions to input positions such that
each output message is what the item at the mapped position yields. -/
theorem parseResponses_order (items out : List JVal)
    (h : parseResponses (.arr items) = .ok out) :
    out.length ≤ items.length ∧
      (∀ item ∈ items, ∃ o, parseResponses (.arr [item]) = .ok o ∧ o.length ≤ 1) ∧
      ∃ f : Fin out.length → Fin items.length, StrictMono f ∧
        ∀ i : Fin out.length, parseResponses (.arr [items.get (f i)]) = .ok [out.get i] := by
  rw [parseResponses_arr] at h
  have hF := forEachItem_forall₂ h
  have hlen : (items.filter recognised).length = out.length := hF.length_eq
  have hsub : List.Sublist (items.filter recognised) items := List.filter_sublist items
  refine ⟨?_, ?_, ?_⟩
  · rw [← hlen]; exact hsub.length_le
  · intro item hm
    obtain ⟨o, ho, hl⟩ := forEachItem_each h item hm
    exact ⟨o, by rw [parseResponses_singleton, ho], hl⟩
  · obtain ⟨e, he⟩ := List.sublist_iff_exists_fin_orderEmbedding_get_eq.mp hsub
    refine ⟨fun i => e (Fin.cast hlen.symm i), ?_, ?_⟩
    · intro a b hab
      exact e.strictMono (show Fin.cast hlen.symm a < Fin.cast hlen.symm b from hab)
    · intro i
      rw [parseResponses_singleton, ← he (Fin.cast hlen.symm i)]
      exact (hF.get (by rw [hlen]; exact i.isLt) i.isLt).1

/-- C3, at a batch of a text item, an item of unknown type and a visual item. -/
theorem parseResponses_order_witness :
    parseResponses (.arr [textItem [["hi"]], .obj [("type", .str "unknown")],
        .obj [("type", .str "visual"), ("payload", .obj [("image", .str "http://x/y.png")])]]) =
      .ok [.obj [("type", .str "text"), ("value", .str "hi")],
        .obj [("type", .str "image"), ("value", .str "http://x/y.png")]] ∧
    ∃ f : Fin 2 → Fin 3, StrictMono f ∧
      ∀ i : Fin 2, parseResponses (.arr [[textItem [["hi"]], JVal.obj [("type", .str "unknown")],
          JVal.obj [("type", .str "visual"),
            ("payload", .obj [("image", .str "http://x/y.png")])]].get (f i)]) =
        .ok [[JVal.obj [("type", .str "text"), ("value", .str "hi")],
          JVal.obj [("type", .str "image"), ("value", .str "http://x/y.png")]].get i] :=
  ⟨rfl, (parseResponses_order
    [textItem [["hi"]], .obj [("type", .str "unknown")],
      .obj [("type", .str "visual"), ("payload", .obj [("image", .str "http://x/y.png")])]]
    [.obj [("type", .str "text"), ("value", .str "hi")],
      .obj [("type", .str "image"), ("value", .str "http://x/y.png")]]
    rfl).2.2⟩

/-- C4, as stated, fails: on a `text` item whose payload has no slate document
`parseResponses` throws a `TypeError`; the item is not omitted. -/
theorem parseResponses_text_without_slate_throws :
    parseResponses (.arr [.obj [("type", .str "text"), ("payload", .obj [])]]) =
      .error .typeError := rfl

/-- C4, amended: `parseResponses` returns, without throwing, exactly on the
batches whose every item is neither `null` nor `undefined` and has the payload
shape expected for its type: a `text` item has `payload.slate.content`, an
array of blocks, each with a `children` array of spans, each span neither
`null` nor `undefined` with a `text` that is absent or converts to a string; a
`visual` item has a payload that is neither `null` nor `undefined`; a `choice`
item has `payload.buttons`, an array of button descriptors, each with a
`request` whose `payload` is neither `null` nor `undefined`; an item of any
other type needs no payload.  On such a batch the result is a sequence of
normalized messages, one per item of the three types, and the items of any
other type are left out without an error; on every other batch it throws. -/
theorem parseResponses_returns_iff_expectedShape (items : List JVal) :
    ((∃ out, parseResponses (.arr items) = .ok out) ↔
        ∀ item ∈ items, expectedShape item = true) ∧
      ((∀ item ∈ items, expectedShape item = true) →
        ∃ out : List NormalizedMessage,
          parseResponses (.arr items) = .ok (out.map NormalizedMessage.toJS) ∧
            out.length = (items.filter recognised).length) := by
  have hfwd : (∀ item ∈ items, expectedShape item = true) →
      ∃ out : List NormalizedMessage,
        parseResponses (.arr items) = .ok (out.map NormalizedMessage.toJS) ∧
          out.length = (items.filter recognised).length := by
    intro h
    obtain ⟨out, hout⟩ := forEachItem_of_expectedShape h
    have hF := forEachItem_forall₂ hout
    obtain ⟨nms, hnms⟩ := exists_normalized_of_forall₂ hF
    refine ⟨nms, by rw [parseResponses_arr, hout, hnms], ?_⟩
    have := hF.length_eq
    rw [hnms, List.length_map] at this
    exact this.symm
  refine ⟨⟨?_, ?_⟩, hfwd⟩
  · rintro ⟨out, hout⟩ item hm
    rw [parseResponses_arr] at hout
    obtain ⟨o, ho, -⟩ := forEachItem_each hout item hm
    exact expectedShape_of_parseItem ho
  · intro h
    obtain ⟨out, hout, -⟩ := hfwd h
    exact ⟨_, hout⟩

/-- C4 amended, at a batch with one item of each recognised type, the text
item having a span whose text is a number, and one item of an unknown type. -/
theorem parseResponses_returns_iff_expectedShape_witness :
    ∃ out : List NormalizedMessage,
      parseResponses (.arr [
        .obj [("type", .str "text"), ("payload", .obj [("slate", .obj [("content", .arr
          [.obj [("children", .arr [.obj [("text", .str "a")],
            .obj [("text", .num false "5")]])]])])])],
        .obj [("type", .str "visual"), ("payload", .obj [("image", .str "http://x/y.png")])],
        .obj [("type", .str "unknown"), ("payload", .null)],
        .obj [("type", .str "choice"), ("payload", .obj [("buttons", .arr
          [.obj [("request", .obj [("payload", .obj [("label", .str "Yes")])])]])])]]) =
        .ok (out.map NormalizedMessage.toJS) ∧
      out.length = ([
        JVal.obj [("type", .str "text"), ("payload", .obj [("slate", .obj [("content", .arr
          [.obj [("children", .arr [.obj [("text", .str "a")],
            .obj [("text", .num false "5")]])]])])])],
        .obj [("type", .str "visual"), ("payload", .obj [("image", .str "http://x/y.png")])],
        .obj [("type", .str "unknown"), ("payload", .null)],
        .obj [("type", .str "choice"), ("payload", .obj [("buttons", .arr
          [.obj [("request", .obj [("payload", .obj [("label", .str "Yes")])])]])])]].filter
          recognised).length :=
  (parseResponses_returns_iff_expectedShape _).2 (by
    intro item hm
    simp only [List.mem_cons, List.mem_singleton, List.not_mem_nil, or_false] at hm
    rcases hm with rfl | rfl | rfl | rfl <;> rfl)

/-- C5: an item whose type is none of `text`, `visual` and `choice` contributes
nothing and raises nothing, whatever else it holds: a batch with the item
gives what the batch without it gives, and the item alone gives the empty
sequence. -/
theorem parseResponses_skips_other_types (item : JVal)
    (hitem : nullish item = false)
    (htext : item.lookup "type" ≠ .str "text")
    (hvisual : item.lookup "type" ≠ .str "visual")
    (hchoice : item.lookup "type" ≠ .str "choice") :
    (∀ xs ys : List JVal,
        parseResponses (.arr (xs ++ [item] ++ ys)) = parseResponses (.arr (xs ++ ys))) ∧
      parseResponses (.arr [item]) = .ok [] := by
  have hr : recognised item = false := by
    simp only [recognised, Bool.or_eq_false_iff]
    refine ⟨⟨?_, ?_⟩, ?_⟩ <;>
      (cases ht : item.lookup "type" <;> simp_all [strictEqStr])
  have h := parseItem_unrecognised hitem hr
  refine ⟨?_, by rw [parseResponses_singleton, h]⟩
  intro xs ys
  rw [parseResponses_arr, parseResponses_arr, List.append_assoc, forEachItem_append,
    forEachItem_append xs ys, List.singleton_append, forEachItem_cons, h]
  cases forEachItem [] xs with
  | error e => rfl
  | ok a =>
    cases forEachItem [] ys with
    | error e => rfl
    | ok b => simp

/-- C5, at an item of type `unknown` with a payload that no branch could read. -/
theorem parseResponses_skips_other_types_witness :
    parseResponses (.arr [.obj [("type", .str "unknown"), ("payload", .null)]]) = .ok [] :=
  (parseResponses_skips_other_types (.obj [("type", .str "unknown"), ("payload", .null)])
    rfl (by simp [JVal.lookup, lookupProps]) (by simp [JVal.lookup, lookupProps])
    (by simp [JVal.lookup, lookupProps])).2

/-! ## Facts about `sendMessage`, `interact` and the turn callback -/

/-- The message a recognised item pushes is of the kind its type calls for. -/
theorem parseItem_kind {item m : JVal} (h : parseItem [] item = .ok [m]) :
    ∃ nm : NormalizedMessage, m = nm.toJS ∧ sameKind item nm := by
  unfold parseItem at h
  cases hn : nullish item with
  | true => cases item <;> simp_all [nullish, getProp, bind, Except.bind]
  | false =>
    rw [getProp_of_not_nullish hn] at h
    simp only [bind, Except.bind, pure, Except.pure] at h
    rcases Bool.eq_false_or_eq_true (strictEqStr (item.lookup "type") "text") with h1 | h1
    · simp only [h1, if_true] at h
      cases hc1 : getProp item "payload" with
      | error e => simp [hc1] at h
      | ok payload =>
        simp only [hc1] at h
        cases hc2 : getProp payload "slate" with
        | error e => simp [hc2] at h
        | ok slate =>
          simp only [hc2] at h
          cases hc3 : getProp slate "content" with
          | error e => simp [hc3] at h
          | ok content =>
            simp only [hc3] at h
            cases hc4 : asArray content with
            | error e => simp [hc4] at h
            | ok blocks =>
              simp only [hc4] at h
              cases hc5 : arrayMap blockText blocks with
              | error e => simp [hc5] at h
              | ok lines =>
                simp only [hc5] at h
                cases hc6 : arrayJoin lines "\n" with
                | error e => simp [hc6] at h
                | ok text =>
                  simp only [hc6, List.nil_append, Except.ok.injEq, List.cons.injEq,
                    and_true] at h
                  exact ⟨.text text, by simp [NormalizedMessage.toJS, ← h],
                    eq_of_strictEqStr h1⟩
    · rcases Bool.eq_false_or_eq_true (strictEqStr (item.lookup "type") "visual") with h2 | h2
      · simp only [h1, h2, if_true, Bool.false_eq_true, if_false] at h
        cases hc7 : getProp item "payload" with
        | error e => simp [hc7] at h
        | ok payload =>
          simp only [hc7] at h
          cases hc8 : getProp payload "image" with
          | error e => simp [hc8] at h
          | ok image =>
            simp only [hc8, List.nil_append, Except.ok.injEq, List.cons.injEq, and_true] at h
            refine ⟨.image image, by simp [NormalizedMessage.toJS, ← h], eq_of_strictEqStr h2, ?_⟩
            rw [getProp_ok hc8, getProp_ok hc7]
      · rcases Bool.eq_false_or_eq_true (strictEqStr (item.lookup "type") "choice") with h3 | h3
        · simp only [h1, h2, h3, if_true, Bool.false_eq_true, if_false] at h
          cases hc9 : getProp item "payload" with
          | error e => simp [hc9] at h
          | ok payload =>
            simp only [hc9] at h
            cases hc10 : getProp payload "buttons" with
            | error e => simp [hc10] at h
            | ok buttons =>
              simp only [hc10] at h
              cases hc11 : asArray buttons with
              | error e => simp [hc11] at h
              | ok descriptors =>
                simp only [hc11] at h
                cases hl : arrayMap buttonLabel descriptors with
                | error e => simp [hl] at h
                | ok labels =>
                  simp only [hl, List.nil_append, Except.ok.injEq, List.cons.injEq,
                    and_true] at h
                  obtain ⟨ls, hls, hlen⟩ := arrayMap_buttonLabel_shape hl
                  refine ⟨.buttons ls, by simp [NormalizedMessage.toJS, ← h, hls],
                    eq_of_strictEqStr h3, descriptors, ?_, hlen⟩
                  rw [← asArray_ok hc11, getProp_ok hc10, getProp_ok hc9]
        · simp [h1, h2, h3] at h

theorem arrayMap_buttonAction (labels : List JVal) :
    arrayMap buttonAction (labels.map fun l => JVal.obj [("label", l)]) = .ok labels := by
  induction labels with
  | nil => rfl
  | cons l ls ih => simp [arrayMap, ih, buttonAction, getProp, JVal.lookup, lookupProps]

theorem heroCard_image (value : JVal) :
    heroCard .null (.arr [value]) .undefined = .ok (.heroCard none [cardImage value] []) := rfl

theorem heroCard_buttons (labels : List JVal) :
    heroCard .null .null (.arr labels) =
      match arrayMap cardAction labels with
      | .error e => .error e
      | .ok actions => .ok (.heroCard none [] actions) := by
  simp only [heroCard, cardEntries, truthy, asArray, bind, Except.bind, pure, Except.pure]
  cases h : arrayMap cardAction labels <;> simp [h]

/-- The loop body of `sendMessage` builds, for each of the three object
literals, what `NormalizedMessage.render` names. -/
theorem renderMessage_toJS (nm : NormalizedMessage) :
    renderMessage nm.toJS =
      match nm.render with
      | .error e => .error e
      | .ok a => .ok (some a) := by
  cases nm with
  | text value => rfl
  | image value => rfl
  | buttons labels =>
    simp only [renderMessage, NormalizedMessage.toJS, NormalizedMessage.render, getProp,
      JVal.lookup, lookupProps, strictEqStr, asArray, bind, Except.bind,
      pure, Except.pure, heroCard_buttons]
    have hb := arrayMap_buttonAction labels
    cases h : arrayMap cardAction labels <;> simp [h, hb]

theorem cardAction_of_defined {l : JVal} (h : defined l = true) :
    ∃ a, cardAction l = .ok a := by
  cases l with
  | bool b => cases b <;> simp [cardAction]
  | _ => simp_all [cardAction, defined]

theorem arrayMap_cardAction_str (labels : List String) :
    arrayMap cardAction (labels.map JVal.str) = .ok (labels.map CardAction.imBack) := by
  induction labels with
  | nil => rfl
  | cons l ls ih => simp [arrayMap, cardAction, ih]

/-- A message whose labels are all present can be rendered. -/
theorem render_of_labelled {nm : NormalizedMessage} (h : nm.labelled = true) :
    ∃ a, nm.render = .ok a := by
  cases nm with
  | text value => exact ⟨_, rfl⟩
  | image value => exact ⟨_, rfl⟩
  | buttons labels =>
    simp only [NormalizedMessage.labelled, List.all_eq_true] at h
    obtain ⟨actions, hactions, -⟩ := @arrayMap_exists _ _ cardAction (fun _ => True) labels
      (fun l hl => by
        obtain ⟨a, ha⟩ := cardAction_of_defined (h l hl)
        exact ⟨a, ha, trivial⟩)
    exact ⟨.heroCard none [] actions, by simp [NormalizedMessage.render, hactions]⟩

theorem rendered_of_labelled {nms : List NormalizedMessage}
    (h : ∀ m ∈ nms, m.labelled = true) :
    ∃ sends : List Activity, List.Forall₂ (fun m a => m.render = .ok a) nms sends := by
  induction nms with
  | nil => exact ⟨[], List.Forall₂.nil⟩
  | cons m nms ih =>
    obtain ⟨a, ha⟩ := render_of_labelled (h m (List.mem_cons_self m nms))
    obtain ⟨sends, hsends⟩ := ih (fun x hx => h x (List.mem_cons_of_mem m hx))
    exact ⟨a :: sends, List.Forall₂.cons ha hsends⟩

/-- On a channel that accepts every send, `sendMessage` sends the rendering of
every message, in order. -/
theorem sendMessage_rendered (ch : Channel) (hch : ∀ past a, ch past a = true)
    {nms : List NormalizedMessage} {sends : List Activity}
    (h : List.Forall₂ (fun m a => m.render = .ok a) nms sends) (log : List Activity) :
    sendMessage ch (nms.map NormalizedMessage.toJS) log = (.ok (), log ++ sends) := by
  induction h generalizing log with
  | nil => simp [sendMessage]
  | cons hma _ ih =>
    simp [sendMessage, renderMessage_toJS, hma, sendActivity, hch, ih]

/-- A rejected send ends `sendMessage` at once: the sends attempted are those
of the messages up to and including the one whose send is rejected. -/
theorem sendMessage_rejected (ch : Channel) {pre : List NormalizedMessage}
    {sent : List Activity} (hsent : List.Forall₂ (fun x s => x.render = .ok s) pre sent)
    {m : NormalizedMessage} {a : Activity} (hm : m.render = .ok a)
    (post : List NormalizedMessage) (log : List Activity)
    (hpre : ∀ p x q, sent = p ++ x :: q → ch (log ++ p) x = true)
    (hfail : ch (log ++ sent) a = false) :
    sendMessage ch ((pre ++ m :: post).map NormalizedMessage.toJS) log =
      (.error .channel, log ++ (sent ++ [a])) := by
  induction hsent generalizing log with
  | nil =>
    simp only [List.append_nil] at hfail
    simp [sendMessage, renderMessage_toJS, hm, sendActivity, hfail]
  | @cons x s pre' sent' hxs _ ih =>
    have hx : ch log s = true := by
      simpa using hpre [] s sent' rfl
    have hrest := ih (log ++ [s])
      (fun p y q hp => by
        have := hpre (s :: p) y q (by rw [hp]; rfl)
        simpa using this)
      (by simpa using hfail)
    rw [List.cons_append, List.map_cons]
    simp only [sendMessage, renderMessage_toJS, hxs, sendActivity, hx, if_true]
    rw [hrest]
    simp

/-- The loop of `sendMessage` over two stretches of messages: the second is
entered only when the first has returned, with the log it left. -/
theorem sendMessage_append (ch : Channel) (xs ys : List JVal) (log : List Activity) :
    sendMessage ch (xs ++ ys) log =
      match sendMessage ch xs log with
      | (.error e, log') => (.error e, log')
      | (.ok (), log') => sendMessage ch ys log' := by
  induction xs generalizing log with
  | nil => simp [sendMessage]
  | cons x xs ih =>
    simp only [List.cons_append, sendMessage]
    cases hx : renderMessage x with
    | error e => rfl
    | ok r =>
      cases r with
      | none => exact ih log
      | some a =>
        simp only [sendActivity]
        cases hc : ch log a with
        | false => simp
        | true => simpa using ih (log ++ [a])

theorem interact_of_parsed {up : Upstream} {user_id request data : JVal} {out : List JVal}
    (ch : Channel) (log : List Activity)
    (hpatch : up.patch user_id = true) (hpost : up.post user_id request = some data)
    (hparse : parseResponses data = .ok out) :
    interact up ch user_id request log = (.ok out, log) := by
  simp [interact, interactTry, hpatch, hpost, hparse]

/-- The messages of a batch, as normalized messages of the kinds the
recognised items call for, in the items' order. -/
theorem forEachItem_kinds {items out : List JVal} (h : forEachItem [] items = .ok out) :
    ∃ nms : List NormalizedMessage, out = nms.map NormalizedMessage.toJS ∧
      List.Forall₂ (fun item nm => parseItem [] item = .ok [nm.toJS] ∧ sameKind item nm)
        (items.filter recognised) nms := by
  have hF := forEachItem_forall₂ h
  clear h
  generalize items.filter recognised = xs at hF
  induction hF with
  | nil => exact ⟨[], rfl, List.Forall₂.nil⟩
  | cons hab _ ih =>
    obtain ⟨nms, hnms, hall⟩ := ih
    obtain ⟨nm, hnm, hkind⟩ := parseItem_kind hab.1
    refine ⟨nm :: nms, by simp [hnm, hnms], List.Forall₂.cons ⟨?_, hkind⟩ hall⟩
    rw [← hnm]
    exact hab.1

theorem labelled_of_sameKind {item : JVal} {nm : NormalizedMessage}
    (hk : sameKind item nm) (hl : hasLabels item = true) : nm.labelled = true := by
  cases nm with
  | text value => rfl
  | image value => rfl
  | buttons labels =>
    obtain ⟨htype, descriptors, hbuttons, hlabels⟩ := hk
    simp only [hasLabels, strictEqStr_of_eq htype, if_true, hbuttons, List.all_eq_true] at hl
    simp only [NormalizedMessage.labelled, hlabels, List.all_eq_true, List.mem_map]
    rintro l ⟨d, hd, rfl⟩
    exact hl d hd

/-- The sends of a batch whose choice items all carry their labels: one
rendering per recognised item, in order. -/
theorem rendered_of_kinds {xs : List JVal} {nms : List NormalizedMessage}
    (h : List.Forall₂ (fun item nm => parseItem [] item = .ok [nm.toJS] ∧ sameKind item nm)
      xs nms)
    (hl : ∀ item ∈ xs, hasLabels item = true) :
    ∃ sends : List Activity,
      List.Forall₂ (fun nm a => nm.render = .ok a) nms sends ∧
        List.Forall₂
          (fun item send => ∃ nm : NormalizedMessage,
            parseResponses (.arr [item]) = .ok [nm.toJS] ∧ sameKind item nm ∧
              nm.render = .ok send)
          xs sends := by
  induction h with
  | nil => exact ⟨[], List.Forall₂.nil, List.Forall₂.nil⟩
  | @cons item nm xs' nms' hab _ ih =>
    obtain ⟨sends, h1, h2⟩ := ih (fun x hx => hl x (List.mem_cons_of_mem item hx))
    obtain ⟨a, ha⟩ := render_of_labelled
      (labelled_of_sameKind hab.2 (hl item (List.mem_cons_self item xs')))
    refine ⟨a :: sends, List.Forall₂.cons ha h1, List.Forall₂.cons ⟨nm, ?_, hab.2, ha⟩ h2⟩
    rw [parseResponses_singleton]
    exact hab.1

/-! ## The claims about delivery -/

/-- C6: when the state-update call or the interact call fails and the channel
accepts every send, `interact` answers with the one failure notice and the
empty array, so the turn sends that notice and nothing else: no normalized
message is rendered, whichever of the two calls failed. -/
theorem upstream_failure_sends_one_notice (up : Upstream) (ch : Channel)
    (activity : InboundActivity)
    (hmsg : activity.type = "message")
    (hfail : up.patch activity.fromId = false ∨
      up.post activity.fromId (.obj [("type", .str "text"), ("payload", activity.text)]) = none)
    (hch : ∀ past a, ch past a = true) :
    interact up ch activity.fromId (.obj [("type", .str "text"), ("payload", activity.text)]) [] =
        (.ok [], [.text (.str "Failed to communicate with Voiceflow API.")]) ∧
      onTurn up ch activity [] =
        (.ok (), [.text (.str "Failed to communicate with Voiceflow API.")]) := by
  have hi : interact up ch activity.fromId
      (.obj [("type", .str "text"), ("payload", activity.text)]) [] =
      (.ok [], [.text (.str "Failed to communicate with Voiceflow API.")]) := by
    rcases hfail with hp | hp
    · simp [interact, interactTry, hp, sendActivity, hch]
    · cases hq : up.patch activity.fromId <;>
        simp [interact, interactTry, hp, hq, sendActivity, hch]
  exact ⟨hi, by simp [onTurn, hmsg, turnTry, hi]⟩

/-- C6, at an upstream whose state update succeeds and whose interact call
fails. -/
theorem upstream_failure_sends_one_notice_witness :
    onTurn ⟨fun _ => true, fun _ _ => none⟩ (fun _ _ => true)
        ⟨"message", .str "user-1", .str "hello"⟩ [] =
      (.ok (), [.text (.str "Failed to communicate with Voiceflow API.")]) :=
  (upstream_failure_sends_one_notice ⟨fun _ => true, fun _ _ => none⟩ (fun _ _ => true)
    ⟨"message", .str "user-1", .str "hello"⟩ rfl (Or.inr rfl) (fun _ _ => rfl)).2

/-- C7: on a channel that accepts every send, for every sequence of
normalized messages whose button labels are all present (as the string labels
of a button set are), `sendMessage` issues exactly one send per message, in
input order, each one with all earlier sends already made: a text as the
plain text of its value, an image as a card with no title, that one image and
no actions, a button set as a card with no title, no image and one action per
label in order.  `[Text "hi", Image "http://x/y.png"]` gives two sends, the
text first and the image card second. -/
theorem sendMessage_one_send_per_message (ch : Channel)
    (hch : ∀ past a, ch past a = true) (msgs : List NormalizedMessage) (log : List Activity)
    (hlabels : ∀ m ∈ msgs, m.labelled = true) :
    ∃ sends : List Activity,
      List.Forall₂ (fun m a => m.render = .ok a) msgs sends ∧
      sendMessage ch (msgs.map NormalizedMessage.toJS) log = (.ok (), log ++ sends) ∧
      sends.length = msgs.length ∧
      (∀ before m after, msgs = before ++ m :: after →
        sendMessage ch (msgs.map NormalizedMessage.toJS) log =
          sendMessage ch ((m :: after).map NormalizedMessage.toJS)
            (log ++ sends.take before.length)) ∧
      (∀ value : String, (NormalizedMessage.text value).render = .ok (.text (.str value))) ∧
      (∀ value : JVal,
        (NormalizedMessage.image value).render = .ok (.heroCard none [cardImage value] [])) ∧
      (∀ url : String, (NormalizedMessage.image (.str url)).render =
        .ok (.heroCard none [.url (.str url)] [])) ∧
      (∀ labels : List String, (NormalizedMessage.buttons (labels.map JVal.str)).render =
        .ok (.heroCard none [] (labels.map CardAction.imBack))) ∧
      sendMessage ch [.obj [("type", .str "text"), ("value", .str "hi")],
          .obj [("type", .str "image"), ("value", .str "http://x/y.png")]] [] =
        (.ok (), [.text (.str "hi"), .heroCard none [.url (.str "http://x/y.png")] []]) := by
  obtain ⟨sends, hsends⟩ := rendered_of_labelled hlabels
  refine ⟨sends, hsends, sendMessage_rendered ch hch hsends log, hsends.length_eq.symm, ?_,
    fun _ => rfl, fun _ => rfl, fun _ => rfl, ?_, ?_⟩
  · intro before m after hsplit
    have htake : List.Forall₂ (fun m a => m.render = .ok a) before
        (sends.take before.length) := by
      have := List.forall₂_take before.length hsends
      rwa [hsplit, List.take_left] at this
    rw [hsplit, List.map_append, sendMessage_append, sendMessage_rendered ch hch htake log]
  · intro labels
    simp [NormalizedMessage.render, arrayMap_cardAction_str]
  · exact sendMessage_rendered ch hch
      (List.Forall₂.cons (rfl : (NormalizedMessage.text "hi").render = _)
        (List.Forall₂.cons (rfl : (NormalizedMessage.image (.str "http://x/y.png")).render = _)
          List.Forall₂.nil)) []

/-- C7, at a text (the empty string), an image and a button set. -/
theorem sendMessage_one_send_per_message_witness :
    ∃ sends : List Activity,
      List.Forall₂ (fun m a => NormalizedMessage.render m = .ok a)
        [.text "", .image (.str "http://x/y.png"), .buttons [.str "Yes", .str "No"]] sends ∧
      sendMessage (fun _ _ => true)
        [.obj [("type", .str "text"), ("value", .str "")],
          .obj [("type", .str "image"), ("value", .str "http://x/y.png")],
          .obj [("type", .str "buttons"),
            ("buttons", .arr [.obj [("label", .str "Yes")], .obj [("label", .str "No")]])]] [] =
        (.ok (), [] ++ sends) ∧
      sendMessage (fun _ _ => true)
        [.obj [("type", .str "text"), ("value", .str "")],
          .obj [("type", .str "image"), ("value", .str "http://x/y.png")],
          .obj [("type", .str "buttons"),
            ("buttons", .arr [.obj [("label", .str "Yes")], .obj [("label", .str "No")]])]] [] =
        (.ok (), [.text (.str ""), .heroCard none [.url (.str "http://x/y.png")] [],
          .heroCard none [] [.imBack "Yes", .imBack "No"]]) :=
  match sendMessage_one_send_per_message (fun _ _ => true) (fun _ _ => rfl)
    [.text "", .image (.str "http://x/y.png"), .buttons [.str "Yes", .str "No"]] []
    (by
      intro m hm
      simp only [List.mem_cons, List.mem_singleton, List.not_mem_nil, or_false] at hm
      rcases hm with rfl | rfl | rfl <;> rfl) with
  | ⟨sends, h1, h2, _⟩ => ⟨sends, h1, h2, rfl⟩

/-- C8: when the upstream answers with the messages `pre ++ m :: post`, the
messages of `pre` are rendered as `sent` and each of those sends is accepted,
and the send `a` of `m` is rejected, `sendMessage` throws to its caller having
attempted exactly the sends of `pre` and of `m`, each once and none for
`post`, and the turn callback then sends the one error notice: the sends
attempted in the turn are `sent`, then `a`, then the notice. -/
theorem rejected_send_aborts_turn (up : Upstream) (ch : Channel) (activity : InboundActivity)
    (data : JVal) (pre : List NormalizedMessage) (m : NormalizedMessage)
    (post : List NormalizedMessage) (sent : List Activity) (a : Activity)
    (hmsg : activity.type = "message")
    (hpatch : up.patch activity.fromId = true)
    (hpost : up.post activity.fromId (.obj [("type", .str "text"), ("payload", activity.text)]) =
      some data)
    (hparse : parseResponses data = .ok ((pre ++ m :: post).map NormalizedMessage.toJS))
    (hsent : List.Forall₂ (fun x s => x.render = .ok s) pre sent)
    (hm : m.render = .ok a)
    (hpre : ∀ p x q, sent = p ++ x :: q → ch p x = true)
    (hfail : ch sent a = false) :
    sendMessage ch ((pre ++ m :: post).map NormalizedMessage.toJS) [] =
        (.error .channel, sent ++ [a]) ∧
      onTurn up ch activity [] =
        (if ch (sent ++ [a])
            (.text (.str "There was an issue processing your message.")) = true
          then .ok () else .error .channel,
         sent ++ [a] ++ [.text (.str "There was an issue processing your message.")]) := by
  have hs := sendMessage_rejected ch hsent hm post []
    (fun p x q hp => by simpa using hpre p x q hp) (by simpa using hfail)
  rw [List.nil_append] at hs
  refine ⟨hs, ?_⟩
  have hi := interact_of_parsed ch [] hpatch hpost hparse
  simp only [onTurn, hmsg, if_true, turnTry, hi]
  rw [if_pos (by simp), hs]
  rfl

/-- C8, at a turn of three messages on a channel that rejects every card: the
text is sent, the image card is attempted, the button set is not, and the
notice follows. -/
theorem rejected_send_aborts_turn_witness :
    onTurn ⟨fun _ => true, fun _ _ => some (.arr [textItem [["hi"]],
        .obj [("type", .str "visual"), ("payload", .obj [("image", .str "http://x/y.png")])],
        .obj [("type", .str "choice"), ("payload", .obj [("buttons", .arr [])])]])⟩
      (fun _ a => match a with
        | .heroCard _ _ _ => false
        | .text _ => true)
      ⟨"message", .str "user-1", .str "hello"⟩ [] =
      (.ok (), [.text (.str "hi"), .heroCard none [.url (.str "http://x/y.png")] [],
        .text (.str "There was an issue processing your message.")]) :=
  (rejected_send_aborts_turn
    ⟨fun _ => true, fun _ _ => some (.arr [textItem [["hi"]],
        .obj [("type", .str "visual"), ("payload", .obj [("image", .str "http://x/y.png")])],
        .obj [("type", .str "choice"), ("payload", .obj [("buttons", .arr [])])]])⟩
    (fun _ a => match a with
      | .heroCard _ _ _ => false
      | .text _ => true)
    ⟨"message", .str "user-1", .str "hello"⟩
    (.arr [textItem [["hi"]],
      .obj [("type", .str "visual"), ("payload", .obj [("image", .str "http://x/y.png")])],
      .obj [("type", .str "choice"), ("payload", .obj [("buttons", .arr [])])]])
    [.text "hi"] (.image (.str "http://x/y.png")) [.buttons []]
    [.text (.str "hi")] (.heroCard none [.url (.str "http://x/y.png")] [])
    rfl rfl rfl rfl
    (List.Forall₂.cons rfl List.Forall₂.nil)
    rfl
    (by
      intro p x q hp
      cases p with
      | nil =>
        simp only [List.nil_append, List.cons.injEq] at hp
        obtain ⟨rfl, -⟩ := hp
        rfl
      | cons y p => simp at hp)
    rfl).2

/-- C9: when both upstream calls succeed, the interact call answers with one
`text` item of one block and one span whose text is `s`, and the channel
accepts every send, the turn sends exactly the plain text `s`, no notice, and
ends without raising.  The utterance `"hello"` answered with `"Hi there"`
sends exactly the plain text `"Hi there"`. -/
theorem text_reply_is_sent_once (up : Upstream) (ch : Channel) (activity : InboundActivity)
    (s : String)
    (hmsg : activity.type = "message")
    (hpatch : up.patch activity.fromId = true)
    (hpost : up.post activity.fromId (.obj [("type", .str "text"), ("payload", activity.text)]) =
      some (.arr [textItem [[s]]]))
    (hch : ∀ past a, ch past a = true) :
    onTurn up ch activity [] = (.ok (), [.text (.str s)]) ∧
      onTurn ⟨fun _ => true, fun _ _ => some (.arr [textItem [["Hi there"]]])⟩ ch
        ⟨"message", activity.fromId, .str "hello"⟩ [] = (.ok (), [.text (.str "Hi there")]) := by
  have key : ∀ t : String, parseResponses (.arr [textItem [[t]]]) =
      .ok ([NormalizedMessage.text t].map NormalizedMessage.toJS) := by
    intro t
    have h := @parseItem_text (textItem [[t]])
      [.obj [("children", .arr [.obj [("text", .str t)]])]] rfl rfl rfl
    rw [parseResponses_singleton, h]
    simp [blockLine, blockSpans, JVal.lookup, lookupProps, spanText, String.intercalate,
      String.intercalate.go, String.join]
  constructor
  · have hi := interact_of_parsed ch [] hpatch hpost (key s)
    simp only [onTurn, hmsg, if_true, turnTry, hi]
    rw [if_pos (by simp), sendMessage_rendered ch hch
      (List.Forall₂.cons (rfl : (NormalizedMessage.text s).render = _) List.Forall₂.nil)]
    rfl
  · have hi := @interact_of_parsed ⟨fun _ => true, fun _ _ =>
        some (.arr [textItem [["Hi there"]]])⟩ activity.fromId
      (.obj [("type", .str "text"), ("payload", .str "hello")]) _ _ ch [] rfl rfl
      (key "Hi there")
    simp only [onTurn, if_true, turnTry, hi]
    rw [if_pos (by simp), sendMessage_rendered ch hch
      (List.Forall₂.cons (rfl : (NormalizedMessage.text "Hi there").render = _)
        List.Forall₂.nil)]
    rfl

/-- C9, at the utterance `"hello"` answered with `"Hi there"`. -/
theorem text_reply_is_sent_once_witness :
    onTurn ⟨fun _ => true, fun _ _ => some (.arr [textItem [["Hi there"]]])⟩ (fun _ _ => true)
        ⟨"message", .str "user-1", .str "hello"⟩ [] = (.ok (), [.text (.str "Hi there")]) :=
  (text_reply_is_sent_once ⟨fun _ => true, fun _ _ => some (.arr [textItem [["Hi there"]]])⟩
    (fun _ _ => true) ⟨"message", .str "user-1", .str "hello"⟩ "Hi there" rfl rfl rfl
    (fun _ _ => rfl)).1

/-- C10: the tags `parseResponses` writes are the ones `sendMessage` reads.  On
a batch of well-formed items (of the shape `parseResponses` expects, every
button descriptor carrying its label) and a channel that accepts every send, `parseResponses` returns and `sendMessage` of
its result issues as many sends as the batch has items of type `text`,
`visual` or `choice`, the i-th send being the rendering of the message the
i-th such item yields: plain text for `text`, the image card for `visual`, the
action card for `choice`. -/
theorem parse_then_send_loses_nothing (items : List JVal) (ch : Channel)
    (hwf : ∀ item ∈ items, wellFormed item = true)
    (hch : ∀ past a, ch past a = true) :
    ∃ (out : List JVal) (sends : List Activity),
      parseResponses (.arr items) = .ok out ∧
        sendMessage ch out [] = (.ok (), sends) ∧
        sends.length = (items.filter recognised).length ∧
        List.Forall₂
          (fun item send => ∃ nm : NormalizedMessage,
            parseResponses (.arr [item]) = .ok [nm.toJS] ∧ sameKind item nm ∧
              nm.render = .ok send)
          (items.filter recognised) sends := by
  have hboth : ∀ item ∈ items, expectedShape item = true ∧ hasLabels item = true := by
    intro item hm
    simpa [wellFormed] using hwf item hm
  obtain ⟨out, hout⟩ := forEachItem_of_expectedShape (fun item hm => (hboth item hm).1)
  obtain ⟨nms, hnms, hall⟩ := forEachItem_kinds hout
  obtain ⟨sends, hsends, hitems⟩ := rendered_of_kinds hall
    (fun item hm => (hboth item (List.mem_of_mem_filter hm)).2)
  refine ⟨out, sends, by rw [parseResponses_arr, hout], ?_, hitems.length_eq.symm, hitems⟩
  rw [hnms, sendMessage_rendered ch hch hsends]
  rfl

/-- C10, at a batch with a text item, an item of unknown type, a visual item
and a choice item: three sends, in the items' order. -/
theorem parse_then_send_loses_nothing_witness :
    ∃ out : List JVal,
      parseResponses (.arr [textItem [["hi"]], .obj [("type", .str "unknown")],
        .obj [("type", .str "visual"), ("payload", .obj [("image", .str "http://x/y.png")])],
        .obj [("type", .str "choice"), ("payload", .obj [("buttons", .arr
          [.obj [("request", .obj [("payload", .obj [("label", .str "Yes")])])]])])]]) =
        .ok out ∧
      sendMessage (fun _ _ => true) out [] =
        (.ok (), [.text (.str "hi"), .heroCard none [.url (.str "http://x/y.png")] [],
          .heroCard none [] [.imBack "Yes"]]) := by
  obtain ⟨out, sends, h1, h2, -, h4⟩ := parse_then_send_loses_nothing
    [textItem [["hi"]], .obj [("type", .str "unknown")],
      .obj [("type", .str "visual"), ("payload", .obj [("image", .str "http://x/y.png")])],
      .obj [("type", .str "choice"), ("payload", .obj [("buttons", .arr
        [.obj [("request", .obj [("payload", .obj [("label", .str "Yes")])])]])])]]
    (fun _ _ => true)
    (by
      intro item hm
      simp only [List.mem_cons, List.mem_singleton, List.not_mem_nil, or_false] at hm
      rcases hm with rfl | rfl | rfl | rfl <;> rfl)
    (fun _ _ => rfl)
  have hout : out = [.obj [("type", .str "text"), ("value", .str "hi")],
      .obj [("type", .str "image"), ("value", .str "http://x/y.png")],
      .obj [("type", .str "buttons"), ("buttons", .arr [.obj [("label", .str "Yes")]])]] :=
    (Except.ok.inj h1).symm
  refine ⟨out, h1, ?_⟩
  subst hout
  rfl

end Celeste
